import Mathlib

/-!
# Chat-System: a verification development

Shallow embedding of the Go sources of the chat backend

* `pkg/snowflake/snowflake.go`  (ID generator),
* `apps/gateway/hub.go`, `apps/gateway/websocket_handler.go`  (hub, admission),
* `apps/messaging/consumer.go`  (persistence consumer),
* `apps/api/*.go`  (read API),

followed by the theorems that settle the claims about them.

Conventions.  A Go `int64` is a Lean `Int` and every arithmetic operation of the
source is followed by an explicit wrap to 64 bits (`wrap64`).  A Go `string` is a
Lean `String`; `len` and slicing are read on the character list, which agrees with
Go's byte view on the ASCII prefix `dm:` the sources test for.  A pointer
`*Client` is a record carrying an address.  A Go panic is the result `none`.
-/

namespace ChatSystem

/-! ## pkg/snowflake/snowflake.go -/

namespace snowflake

/-- Two's complement wrap of an integer to the range of a Go `int64`. -/
def wrap64 (x : Int) : Int := (x + 9223372036854775808) % 18446744073709551616 - 9223372036854775808

/-- Go `a + b` on `int64`. -/
def add64 (a b : Int) : Int := wrap64 (a + b)

/-- Go `a - b` on `int64`. -/
def sub64 (a b : Int) : Int := wrap64 (a - b)

/-- Go `a << k` on `int64`. -/
def shl64 (a : Int) (k : Nat) : Int := wrap64 (a * 2 ^ k)

def nodeBits : Nat := 10
def stepBits : Nat := 12
/-- Go `-1 ^ (-1 << nodeBits)`, the constant 1023. -/
def nodeMax : Int := 1023
/-- Go `-1 ^ (-1 << stepBits)`, the constant 4095. -/
def stepMask : Int := 4095
def timeShift : Nat := nodeBits + stepBits
def nodeShift : Nat := stepBits
/-- The instant 2024-01-01 00:00:00 UTC in Unix milliseconds. -/
def epoch : Int := 1704067200000

/-- The generator state (the mutex is not modelled: `Generate` is one critical section). -/
structure Node where
  time : Int
  node : Int
  step : Int
  epoch : Int
deriving DecidableEq, Repr

def NewNode (node : Int) : Except String Node :=
  if node < 0 ∨ node > nodeMax then
    Except.error "node number must be between 0 and 1023"
  else
    Except.ok { time := 0, node := node, step := 0, epoch := epoch }

/-- The value `Generate` returns: `((now - n.epoch) << timeShift) | (n.node << nodeShift) | n.step`. -/
def compose (now : Int) (n : Node) : Int :=
  Int.lor (Int.lor (shl64 (sub64 now n.epoch) timeShift) (shl64 n.node nodeShift)) n.step

/-- The busy-wait `for now <= n.time { now = time.Now().UnixMilli() }`.  The wall clock is the
list of its successive readings; the loop does not end when the readings run out. -/
def spin (last : Int) (now : Int) : List Int → Option (Int × List Int)
  | [] => if now ≤ last then none else some (now, [])
  | r :: rest => if now ≤ last then spin last r rest else some (now, r :: rest)

/-- One call of `Generate`: the ID, the generator afterwards, the clock readings left. -/
def Generate (n : Node) (clock : List Int) : Option (Int × Node × List Int) :=
  match clock with
  | [] => none
  | t :: rest =>
    let now := if t < n.time then n.time else t
    if n.time = now then
      let step := Int.land (add64 n.step 1) stepMask
      if step = 0 then
        match spin n.time now rest with
        | none => none
        | some (now1, rest1) =>
          let n1 : Node := { n with step := step, time := now1 }
          some (compose now1 n1, n1, rest1)
      else
        let n1 : Node := { n with step := step, time := now }
        some (compose now n1, n1, rest)
    else
      let n1 : Node := { n with step := 0, time := now }
      some (compose now n1, n1, rest)

/-- The IDs of `k` successive calls of `Generate` on the same generator. -/
def generateMany (n : Node) (clock : List Int) : Nat → Option (List Int)
  | 0 => some []
  | k + 1 =>
    match Generate n clock with
    | none => none
    | some (id, n1, rest) =>
      match generateMany n1 rest k with
      | none => none
      | some ids => some (id :: ids)

/-- A reading of the wall clock at or after the epoch and within the 41-bit range. -/
def InRange (t : Int) : Prop := epoch ≤ t ∧ t - epoch < 2 ^ 41

/-- The states a generator built by `NewNode` can be in. -/
structure Good (n : Node) : Prop where
  node_lo : 0 ≤ n.node
  node_hi : n.node ≤ 1023
  step_lo : 0 ≤ n.step
  step_hi : n.step ≤ 4095
  epoch_eq : n.epoch = epoch
  time_ok : n.time = 0 ∨ InRange n.time

/-- The integer an ID packs: time field, node field, sequence field. -/
def val (n : Node) : Int := (n.time - epoch) * 4194304 + n.node * 4096 + n.step

/-- The time field of an ID, its bits above the node and sequence fields: `id >> timeShift`. -/
def timeOf (id : Int) : Int := id >>> timeShift

/-- The sequence field of an ID, its low 12 bits: `id & stepMask`. -/
def stepOf (id : Int) : Int := Int.land id stepMask

/-- How an ID follows the one returned just before it: in the same millisecond with the next
sequence number, or in a later millisecond with sequence zero. -/
def Follows (a b : Int) : Prop :=
  (timeOf b = timeOf a ∧ stepOf b = stepOf a + 1) ∨ (timeOf a < timeOf b ∧ stepOf b = 0)

end snowflake

/-! ## pkg/model/message.go -/

namespace model

abbrev MessageType := String

def TypeMessage : MessageType := "message"
def TypeTyping : MessageType := "typing"
def TypePresence : MessageType := "presence"
def TypeReadReceipt : MessageType := "read_receipt"

/-- A Go `time.Time`, as the number of nanoseconds since the zero `Time`; `IsZero` is `= 0`. -/
abbrev Time := Int

structure Message where
  ID : Int
  ChannelID : String
  UserID : String
  Content : String
  /-- The field `Type` of the source (a reserved word here). -/
  Type_ : MessageType
  Timestamp : Time
deriving DecidableEq, Repr

end model

/-! ## The `strings` operations the sources use on channel IDs -/

namespace strings

/-- Cut a character list at every `sep`; the empty list gives one empty part. -/
def splitChars (sep : Char) : List Char → List (List Char)
  | [] => [[]]
  | c :: cs =>
    if c = sep then [] :: splitChars sep cs
    else
      match splitChars sep cs with
      | [] => [[c]]
      | p :: ps => (c :: p) :: ps

/-- Go `strings.Split(s, sep)` for a one-character separator. -/
def Split (s : String) (sep : Char) : List String :=
  (splitChars sep s.data).map String.mk

/-- The inverse of `splitChars`: the parts with `sep` between them. -/
def joinChars (sep : Char) : List (List Char) → List Char
  | [] => []
  | [p] => p
  | p :: q :: rest => p ++ sep :: joinChars sep (q :: rest)

/-- The test `len(s) > 3 && s[:3] == "dm:"` that hub, consumer and admission all make. -/
def isDM (s : String) : Bool :=
  decide (s.data.length > 3) && decide (s.data.take 3 = ['d', 'm', ':'])

end strings

/-! ## apps/gateway/hub.go -/

namespace gateway

open model

/-- A `*Client`: the address identifies the session, `ID` is the user, `ChannelID` the channel
asked for at admission.  The connection and the hub back-pointer are not modelled. -/
structure Client where
  addr : Nat
  ID : String
  ChannelID : String
deriving DecidableEq, Repr

/-- The state of a `chan []byte`: what is buffered, and whether it has been closed. -/
structure Chan where
  buf : List String
  closed : Bool
deriving DecidableEq, Repr

/-- The capacity `serveWs` gives every `send` channel: `make(chan []byte, 256)`. -/
def sendCap : Nat := 256

/-- A channel as `make` returns it. -/
def Chan.fresh : Chan := { buf := [], closed := false }

/-- The non-blocking send `select { case ch <- v: ... default: ... }`: `none` is the panic of a
send on a closed channel, `some none` the `default` branch (buffer full), `some (some q)` the
channel after the send. -/
def Chan.trySend (q : Chan) (v : String) : Option (Option Chan) :=
  if q.closed then none
  else if q.buf.length < sendCap then some (some { q with buf := q.buf ++ [v] })
  else some none

/-- Go `close(ch)`: `none` is the panic of closing a closed channel. -/
def Chan.close (q : Chan) : Option Chan :=
  if q.closed then none else some { q with closed := true }

/-- A `map[*Client]bool` whose values are all `true`: the list of its keys, without repeats. -/
abbrev ClientSet := List Client

/-- Go `clients[client] = true`. -/
def ClientSet.insert (l : ClientSet) (c : Client) : ClientSet :=
  if c ∈ l then l else l ++ [c]

/-- Go `delete(clients, client)`. -/
def ClientSet.delete (l : ClientSet) (c : Client) : ClientSet :=
  l.filter (fun x => decide (x ≠ c))

/-- Redis `SADD key member` on the members of one set. -/
def sadd (l : List String) (x : String) : List String :=
  if x ∈ l then l else l ++ [x]

/-- Redis `SREM key member` on the members of one set. -/
def srem (l : List String) (x : String) : List String :=
  l.filter (fun y => decide (y ≠ x))

/-- The Redis key `"channel:" + channelID + ":users"`. -/
def presenceKey (channelID : String) : String :=
  "channel:" ++ channelID ++ ":users"

/-- The hub, together with what it acts on: the state of every client's `send` channel, the
Redis sets by key (a missing key is the empty set), and the envelopes that the goroutines
spawned by `Run` are submitting to `h.broadcast`, oldest first. -/
structure Hub where
  clients : String → Option ClientSet
  userClients : String → Option ClientSet
  send : Client → Chan
  redis : String → List String
  broadcast : List Message

/-- The hub as `NewHub` returns it, in front of an empty Redis. -/
def NewHub : Hub :=
  { clients := fun _ => none
    userClients := fun _ => none
    send := fun _ => Chan.fresh
    redis := fun _ => []
    broadcast := [] }

/-- The sessions in `h.clients[channelID]` (none when the key is absent). -/
def Hub.byChannel (h : Hub) (channelID : String) : ClientSet :=
  (h.clients channelID).getD []

/-- The sessions in `h.userClients[userID]` (none when the key is absent). -/
def Hub.byUser (h : Hub) (userID : String) : ClientSet :=
  (h.userClients userID).getD []

/-- The `register` case of `Hub.Run`.  `kvOk` tells whether the Redis command succeeds, `now` is
the reading of `time.Now()` for the join envelope. -/
def Hub.register (h : Hub) (client : Client) (kvOk : Bool) (now : Time) : Hub :=
  { clients := Function.update h.clients client.ChannelID
      (some (ClientSet.insert ((h.clients client.ChannelID).getD []) client))
    userClients := Function.update h.userClients client.ID
      (some (ClientSet.insert ((h.userClients client.ID).getD []) client))
    send := h.send
    redis :=
      if kvOk then
        Function.update h.redis (presenceKey client.ChannelID)
          (sadd (h.redis (presenceKey client.ChannelID)) client.ID)
      else h.redis
    broadcast := h.broadcast ++
      [{ ID := 0, ChannelID := client.ChannelID, UserID := client.ID, Type_ := TypePresence,
         Content := "joined", Timestamp := now }] }

/-- The first half of the `unregister` case: the channel map, the queue, presence and the
leave envelope. -/
def Hub.unregisterChannel (h : Hub) (client : Client) (kvOk : Bool) (now : Time) : Option Hub :=
  match h.clients client.ChannelID with
  | some clients =>
    if client ∈ clients then
      match (h.send client).close with
      | none => none
      | some q =>
        some
          { clients :=
              if (ClientSet.delete clients client).length = 0 then
                Function.update h.clients client.ChannelID none
              else
                Function.update h.clients client.ChannelID (some (ClientSet.delete clients client))
            userClients := h.userClients
            send := Function.update h.send client q
            redis :=
              if kvOk then
                Function.update h.redis (presenceKey client.ChannelID)
                  (srem (h.redis (presenceKey client.ChannelID)) client.ID)
              else h.redis
            broadcast := h.broadcast ++
              [{ ID := 0, ChannelID := client.ChannelID, UserID := client.ID,
                 Type_ := TypePresence, Content := "left", Timestamp := now }] }
    else some h
  | none => some h

/-- The second half of the `unregister` case: the user map. -/
def Hub.unregisterUser (h : Hub) (client : Client) : Hub :=
  match h.userClients client.ID with
  | some clients =>
    if client ∈ clients then
      { h with
        userClients :=
          if (ClientSet.delete clients client).length = 0 then
            Function.update h.userClients client.ID none
          else
            Function.update h.userClients client.ID (some (ClientSet.delete clients client)) }
    else h
  | none => h

/-- The `unregister` case of `Hub.Run`; `none` is a panic. -/
def Hub.unregister (h : Hub) (client : Client) (kvOk : Bool) (now : Time) : Option Hub :=
  match h.unregisterChannel client kvOk now with
  | none => none
  | some h1 => some (h1.unregisterUser client)

/-- What a `for client := range clients` loop of the fanout carries: the `send` channels, the
bucket being ranged over, and the sessions offered the envelope so far. -/
structure Fan where
  send : Client → Chan
  clients : ClientSet
  offered : List Client

/-- The body of the fanout loop for one client:
`select { case client.send <- m.Value: default: close(client.send); delete(clients, client) }`. -/
def offer (value : String) (st : Fan) (client : Client) : Option Fan :=
  match (st.send client).trySend value with
  | none => none
  | some (some q) =>
    some { st with send := Function.update st.send client q, offered := st.offered ++ [client] }
  | some none =>
    match (st.send client).close with
    | none => none
    | some q =>
      some { send := Function.update st.send client q
             clients := ClientSet.delete st.clients client
             offered := st.offered ++ [client] }

/-- The loop `for client := range clients { ... }` over one bucket, in the order of the list
(Go fixes no order; every session present at the start is visited once). -/
def rangeOffer (value : String) (send : Client → Chan) (clients : ClientSet)
    (offered : List Client) : Option Fan :=
  clients.foldlM (offer value) { send := send, clients := clients, offered := offered }

/-- The fanout to the sessions of one DM participant:
`if clients, ok := h.userClients[userID]; ok { for client := range clients { ... } }`. -/
def fanoutUser (value : String) (st : Hub × List Client) (userID : String) :
    Option (Hub × List Client) :=
  match st.1.userClients userID with
  | some clients =>
    match rangeOffer value st.1.send clients st.2 with
    | none => none
    | some r =>
      some ({ st.1 with send := r.send
                        userClients := Function.update st.1.userClients userID (some r.clients) },
            r.offered)
  | none => some st

/-- The body of the consumer goroutine of `NewHub` for one envelope read from the broker and
decoded to `msg`; `value` is the raw record.  The result is the hub afterwards and the
sessions that were offered the envelope; `none` is a panic. -/
def Hub.fanout (h : Hub) (value : String) (msg : Message) : Option (Hub × List Client) :=
  if strings.isDM msg.ChannelID then
    match strings.Split msg.ChannelID ':' with
    | [_, u1, u2] => [u1, u2].foldlM (fanoutUser value) (h, [])
    | _ => some (h, [])
  else
    match h.clients msg.ChannelID with
    | some clients =>
      match rangeOffer value h.send clients [] with
      | none => none
      | some r =>
        some ({ h with send := r.send
                       clients := Function.update h.clients msg.ChannelID (some r.clients) },
              r.offered)
    | none => some (h, [])

/-- The events the hub handles one at a time (the maps are under one lock). -/
inductive Event where
  | register (client : Client) (kvOk : Bool) (now : Time)
  | unregister (client : Client) (kvOk : Bool) (now : Time)
  | consume (value : String) (msg : Message)

/-- One event. -/
def Hub.step (h : Hub) : Event → Option Hub
  | Event.register c kvOk now => some (h.register c kvOk now)
  | Event.unregister c kvOk now => h.unregister c kvOk now
  | Event.consume value msg => (h.fanout value msg).map Prod.fst

/-- A sequence of events, oldest first. -/
def Hub.run (h : Hub) : List Event → Option Hub
  | [] => some h
  | e :: es =>
    match h.step e with
    | none => none
    | some h1 => h1.run es

/-- The event meets no failure of the key-value store (a fanout issues no Redis command). -/
def Event.kvOk : Event → Bool
  | Event.register _ kvOk _ => kvOk
  | Event.unregister _ kvOk _ => kvOk
  | Event.consume _ _ => true

/-- A session of user `u` in the plain channel `general`. -/
def slowPlain : Client := { addr := 1, ID := "u", ChannelID := "general" }

/-- An envelope sent by another user on `general`. -/
def plainEnvelope : Message :=
  { ID := 7, ChannelID := "general", UserID := "v", Content := "hi", Type_ := TypeMessage,
    Timestamp := 1 }

/-- A session of user `a` in the DM channel `dm:a:b`. -/
def slowDM : Client := { addr := 2, ID := "a", ChannelID := "dm:a:b" }

/-- An envelope on `dm:a:b`. -/
def slowDMEnvelope : Message :=
  { ID := 8, ChannelID := "dm:a:b", UserID := "a", Content := "hi", Type_ := TypeMessage,
    Timestamp := 1 }

/-- The hub after `slowPlain` joined and 256 envelopes on `general` were fanned out to it
with nothing read from its queue. -/
def slowPlainHub : Hub :=
  (NewHub.run (Event.register slowPlain true 0 ::
    List.replicate 256 (Event.consume "raw" plainEnvelope))).getD NewHub

/-- The hub and the sessions offered after one more envelope on `general`. -/
def slowPlainAfter : Hub × List Client :=
  (slowPlainHub.fanout "raw" plainEnvelope).getD (NewHub, [])

/-- The hub after `slowDM` joined and 256 envelopes on `dm:a:b` were fanned out to it with
nothing read from its queue. -/
def slowDMHub : Hub :=
  (NewHub.run (Event.register slowDM true 0 ::
    List.replicate 256 (Event.consume "raw" slowDMEnvelope))).getD NewHub

/-- The hub and the sessions offered after one more envelope on `dm:a:b`. -/
def slowDMAfter : Hub × List Client :=
  (slowDMHub.fanout "raw" slowDMEnvelope).getD (NewHub, [])

end gateway

/-! ## pkg/auth/jwt.go -/

namespace auth

/-- The claim set of a token; the registered claims (expiry) stay inside the verifier. -/
structure Claims where
  UserID : String
deriving DecidableEq, Repr

/-- The statement `if len(tokenString) > 7 && tokenString[:7] == "Bearer " { tokenString =
tokenString[7:] }` that gateway admission and `AuthMiddleware` both make. -/
def stripBearer (tokenString : String) : String :=
  if tokenString.data.length > 7 ∧ tokenString.data.take 7 = ['B', 'e', 'a', 'r', 'e', 'r', ' ']
  then String.mk (tokenString.data.drop 7)
  else tokenString

/-- A verifier for the worked cases: it accepts the token `tok-u`, for user `u`, and nothing
else. -/
def verifierU : String → Option Claims :=
  fun t => if t = "tok-u" then some { UserID := "u" } else none

end auth

/-! ## apps/gateway/websocket_handler.go: admission -/

namespace gateway

/-- What `serveWs` reads of the upgrade request. -/
structure Request where
  /-- The header `Authorization` (empty when absent). -/
  authorization : String
  /-- The query parameter `token` (empty when absent). -/
  token : String
  /-- The query parameter `channel` (empty when absent). -/
  channel : String
deriving DecidableEq, Repr

/-- How `serveWs` ends: an HTTP error, a failed upgrade, or a registered client. -/
inductive Admission where
  | reject (status : Nat) (body : String)
  | upgradeFailed
  | admitted (client : Client)
deriving DecidableEq, Repr

/-- The function `serveWs` up to `client.hub.register <- client`.  `ValidateToken` is the
token verifier, `upgradeOk` tells whether `upgrader.Upgrade` succeeds, `addr` is the address
of the `Client` it allocates. -/
def serveWs (ValidateToken : String → Option auth.Claims) (upgradeOk : Bool) (addr : Nat)
    (r : Request) : Admission :=
  let tokenString := if r.authorization = "" then r.token else r.authorization
  if tokenString = "" then Admission.reject 401 "Unauthorized"
  else
    match ValidateToken (auth.stripBearer tokenString) with
    | none => Admission.reject 401 "Unauthorized"
    | some claims =>
      let userID := claims.UserID
      let channelID := if r.channel = "" then "general" else r.channel
      let proceed : Admission :=
        if upgradeOk then
          Admission.admitted { addr := addr, ID := userID, ChannelID := channelID }
        else Admission.upgradeFailed
      if strings.isDM channelID then
        match strings.Split channelID ':' with
        | [_, p1, p2] =>
          if p1 ≠ userID ∧ p2 ≠ userID then
            Admission.reject 403 "Unauthorized to join this DM"
          else proceed
        | _ => Admission.reject 400 "Invalid DM channel format"
      else proceed

/-- The envelope the read task of a Session builds for an inbound frame: the struct literal
of `readPump` stamps the Session's own channel and user; type and content come from the
frame. -/
def Client.envelope (c : Client) (type_ : model.MessageType) (content : String)
    (now : model.Time) : model.Message :=
  { ID := 0, ChannelID := c.ChannelID, UserID := c.ID, Content := content, Type_ := type_,
    Timestamp := now }

/-- Go `unicode.IsSpace`, the white space that `bytes.TrimSpace` cuts off. -/
def isSpace (c : Char) : Bool :=
  c = '\t' || c = '\n' || c = '\x0b' || c = '\x0c' || c = '\r' || c = ' ' ||
  c = '\u0085' || c = '\u00a0' || c = '\u1680' ||
  (decide (8192 ≤ c.toNat) && decide (c.toNat ≤ 8202)) ||
  c = '\u2028' || c = '\u2029' || c = '\u202f' || c = '\u205f' || c = '\u3000'

/-- Go `bytes.TrimSpace`: the white space at both ends is cut off. -/
def TrimSpace (l : List Char) : List Char :=
  ((l.dropWhile isSpace).reverse.dropWhile isSpace).reverse

/-- The first statement of the loop of `readPump`:
`message = bytes.TrimSpace(bytes.Replace(message, newline, space, -1))`. -/
def normalize (message : String) : String :=
  String.mk (TrimSpace (message.data.map fun c => if c = '\n' then ' ' else c))

/-- The local variable `partialMsg` of `readPump`: the fields `type` and `content` of the
frame. -/
structure PartialMsg where
  Type_ : model.MessageType
  Content : String
deriving DecidableEq, Repr

/-- The body of the loop of `readPump` for one frame read from the connection: the envelope
it sends to `c.hub.broadcast`.  `Unmarshal` is `json.Unmarshal` into `partialMsg` (`none`
when it returns an error), `now` the reading of `time.Now()`. -/
def readPump (Unmarshal : String → Option PartialMsg) (c : Client) (frame : String)
    (now : model.Time) : model.Message :=
  let message := normalize frame
  match Unmarshal message with
  | some partialMsg =>
    if partialMsg.Type_ ≠ "" then c.envelope partialMsg.Type_ partialMsg.Content now
    else c.envelope model.TypeMessage message now
  | none => c.envelope model.TypeMessage message now

/-- A decoder for the worked cases: it decodes the frame `{"type":"foo"}` as `encoding/json`
does, to type `foo` and empty content, and returns an error on every other frame. -/
def unmarshalSample : String → Option PartialMsg :=
  fun s => if s = "\x7b\"type\":\"foo\"\x7d" then some { Type_ := "foo", Content := "" } else none

end gateway

/-! ## The store (pkg/db/scylla.go and the three tables of apps/messaging/main.go) -/

namespace db

open model

/-- The non-key columns of a row of `messages`. -/
structure MessageRow where
  user_id : String
  content : String
  timestamp : Time
deriving DecidableEq, Repr

/-- The rows of one partition of `user_conversations`: `(other_user_id, last_updated)`, in
clustering order. -/
abbrev ConversationRows := List (String × Time)

/-- The three tables.  `messages` and `conversation_counters` are read by primary key only;
`user_conversations` is read a partition at a time. -/
structure Session where
  messages : String × Int → Option MessageRow
  user_conversations : String → ConversationRows
  conversation_counters : String × String → Option Int

/-- The empty keyspace. -/
def Session.empty : Session :=
  { messages := fun _ => none
    user_conversations := fun _ => []
    conversation_counters := fun _ => none }

/-- An `INSERT` of `(other, ts)` into one partition of `user_conversations`: the row with that
clustering key is replaced, or the new row takes its place in the order of the keys (the
lexicographic order of their characters). -/
def upsertRow (rows : ConversationRows) (other : String) (ts : Time) : ConversationRows :=
  match rows with
  | [] => [(other, ts)]
  | (o, t) :: rest =>
    if o = other then (other, ts) :: rest
    else if other.data < o.data then (other, ts) :: (o, t) :: rest
    else (o, t) :: upsertRow rest other ts

/-- `INSERT INTO messages (channel_id, id, user_id, content, timestamp) VALUES (?, ?, ?, ?, ?)`. -/
def Session.insertMessage (s : Session) (m : Message) : Session :=
  { messages := Function.update s.messages (m.ChannelID, m.ID)
      (some { user_id := m.UserID, content := m.Content, timestamp := m.Timestamp })
    user_conversations := s.user_conversations
    conversation_counters := s.conversation_counters }

/-- `INSERT INTO user_conversations (user_id, other_user_id, last_updated) VALUES (?, ?, ?)`. -/
def Session.insertConversation (s : Session) (user other : String) (ts : Time) : Session :=
  { messages := s.messages
    user_conversations := Function.update s.user_conversations user
      (upsertRow (s.user_conversations user) other ts)
    conversation_counters := s.conversation_counters }

/-- `UPDATE conversation_counters SET unread_count = unread_count + 1 WHERE user_id = ? AND
other_user_id = ?`; a counter that has no row counts from zero.  The addition is the store's. -/
def Session.incrementCounter (s : Session) (user other : String) : Session :=
  { messages := s.messages
    user_conversations := s.user_conversations
    conversation_counters := Function.update s.conversation_counters (user, other)
      (some ((s.conversation_counters (user, other)).getD 0 + 1)) }

/-- `DELETE FROM conversation_counters WHERE user_id = ? AND other_user_id = ?`. -/
def Session.deleteCounter (s : Session) (user other : String) : Session :=
  { messages := s.messages
    user_conversations := s.user_conversations
    conversation_counters := Function.update s.conversation_counters (user, other) none }

/-- The table `user_conversations` after the `INSERT` of `(user, other, ts)`. -/
def insertRows (t : String → ConversationRows) (user other : String) (ts : Time) :
    String → ConversationRows :=
  Function.update t user (upsertRow (t user) other ts)

/-- The `last_updated` of the row `(user, other)` of `user_conversations`, if there is one. -/
def Session.lastUpdated (s : Session) (user other : String) : Option Time :=
  (s.user_conversations user).lookup other

end db

/-! ## apps/messaging/consumer.go -/

namespace messaging

open model

/-- Which of the four statements of one round succeed; a statement that fails writes
nothing and is only logged. -/
structure ExecOk where
  message : Bool
  conversation1 : Bool
  conversation2 : Bool
  counter : Bool
deriving DecidableEq, Repr

/-- No store failure. -/
def ExecOk.all : ExecOk :=
  { message := true, conversation1 := true, conversation2 := true, counter := true }

/-- The body of the loop of `Consumer.Consume` for one record read from the broker; `decoded`
is the result of `json.Unmarshal` (`none` when it fails). -/
def ConsumeStep (s : db.Session) (decoded : Option Message) (ok : ExecOk) : db.Session :=
  match decoded with
  | none => s
  | some msg =>
    if msg.Type_ ≠ TypeMessage then s
    else
      let s1 := if ok.message then s.insertMessage msg else s
      if strings.isDM msg.ChannelID then
        match strings.Split msg.ChannelID ':' with
        | [_, u1, u2] =>
          let s2 := if ok.conversation1 then s1.insertConversation u1 u2 msg.Timestamp else s1
          let s3 := if ok.conversation2 then s2.insertConversation u2 u1 msg.Timestamp else s2
          let sender := msg.UserID
          let recipient := if u1 = sender then u2 else u1
          if ok.counter then s3.incrementCounter recipient sender else s3
        | _ => s1
      else s1

end messaging

/-! ## apps/api: the authentication middleware, /conversations and /conversations/read -/

namespace api

open model

/-- What the handlers read of a request. -/
structure Request where
  method : String
  /-- The header `Authorization` (empty when absent). -/
  authorization : String
  /-- The field `other_user_id` of the JSON body, `none` when the body does not decode. -/
  body : Option String
deriving DecidableEq, Repr

/-- The value `r.Context().Value(auth.UserKey).(*auth.Claims)`: the claims stored in the
request context under `auth.UserKey`, if any. -/
abbrev Context := Option auth.Claims

/-- The context of a request as the HTTP server hands it to the outermost handler: nothing
is stored under `auth.UserKey`. -/
def Context.background : Context := none

structure Conversation where
  UserID : String
  OtherUserID : String
  LastUpdated : Time
  UnreadCount : Int
deriving DecidableEq, Repr

/-- A response body: the text of `http.Error`, the JSON list of conversations, or nothing. -/
inductive Body where
  | text (s : String)
  | conversations (l : List Conversation)
  | empty
deriving DecidableEq, Repr

structure Response where
  status : Nat
  body : Body
deriving DecidableEq, Repr

/-- A handler: from the request context and the request, against the store, to a response and
the store afterwards. -/
abbrev Handler := Context → Request → db.Session → Response × db.Session

/-- The function `AuthMiddleware`.  On a valid token it logs the user and calls `next` with
the request it received: the context is passed on as it came. -/
def AuthMiddleware (ValidateToken : String → Option auth.Claims) (next : Handler) : Handler :=
  fun ctx r s =>
    if r.authorization = "" then
      ({ status := 401, body := Body.text "Authorization header required" }, s)
    else
      match ValidateToken (auth.stripBearer r.authorization) with
      | none => ({ status := 401, body := Body.text "Invalid token" }, s)
      | some _ => next ctx r s

/-- The loop `for iter.Scan(&c.UserID, &c.OtherUserID, &c.LastUpdated) { ... }` of
`ConversationsHandler`.  The variable `c` is declared before the loop and lives across the
rounds; `UnreadCount` is assigned only when the counter query returns a row. -/
def scanConversations (s : db.Session) (user : String) :
    db.ConversationRows → Conversation → List Conversation → List Conversation
  | [], _, conversations => conversations
  | (other, ts) :: rest, c, conversations =>
    let c1 : Conversation := { c with UserID := user, OtherUserID := other, LastUpdated := ts }
    let c2 : Conversation :=
      match s.conversation_counters (c1.UserID, c1.OtherUserID) with
      | some count => { c1 with UnreadCount := count }
      | none => c1
    scanConversations s user rest c2 (conversations ++ [c2])

/-- The function `ConversationsHandler`; `iterErr` is the error of `iter.Close()`, if any. -/
def ConversationsHandler (iterErr : Option String) : Handler :=
  fun ctx _ s =>
    match ctx with
    | none => ({ status := 401, body := Body.text "Unauthorized" }, s)
    | some claims =>
      let conversations :=
        scanConversations s claims.UserID (s.user_conversations claims.UserID)
          { UserID := "", OtherUserID := "", LastUpdated := 0, UnreadCount := 0 } []
      match iterErr with
      | some e => ({ status := 500, body := Body.text e }, s)
      | none => ({ status := 200, body := Body.conversations conversations }, s)

/-- The function `ReadHandler`; `execOk` tells whether the `DELETE` succeeds. -/
def ReadHandler (execOk : Bool) : Handler :=
  fun ctx r s =>
    if r.method ≠ "POST" then ({ status := 405, body := Body.text "Method not allowed" }, s)
    else
      match ctx with
      | none => ({ status := 401, body := Body.text "Unauthorized" }, s)
      | some claims =>
        match r.body with
        | none => ({ status := 400, body := Body.text "Invalid request body" }, s)
        | some other =>
          if execOk then ({ status := 200, body := Body.empty }, s.deleteCounter claims.UserID other)
          else ({ status := 500, body := Body.text "Failed to reset unread count" }, s)

/-- The route `/conversations` as `main` mounts it, inside the CORS wrapper. -/
def conversationsRoute (ValidateToken : String → Option auth.Claims) (iterErr : Option String)
    (r : Request) (s : db.Session) : Response × db.Session :=
  AuthMiddleware ValidateToken (ConversationsHandler iterErr) Context.background r s

/-- The route `/conversations/read` as `main` mounts it, inside the CORS wrapper. -/
def readRoute (ValidateToken : String → Option auth.Claims) (execOk : Bool)
    (r : Request) (s : db.Session) : Response × db.Session :=
  AuthMiddleware ValidateToken (ReadHandler execOk) Context.background r s

/-- A DM of type `message` from `sender` on `channel`. -/
def dm (id : Int) (channel sender : String) (ts : Time) : Message :=
  { ID := id, ChannelID := channel, UserID := sender, Content := "hi", Type_ := TypeMessage,
    Timestamp := ts }

/-- The store after the Persistence Consumer has handled three DMs from `a` to `u` on
`dm:a:u` and one DM from `b` to `u` on `dm:b:u`. -/
def unreadStore : db.Session :=
  messaging.ConsumeStep
    (messaging.ConsumeStep
      (messaging.ConsumeStep
        (messaging.ConsumeStep db.Session.empty (some (dm 1 "dm:a:u" "a" 8)) messaging.ExecOk.all)
        (some (dm 2 "dm:a:u" "a" 9)) messaging.ExecOk.all)
      (some (dm 3 "dm:a:u" "a" 10)) messaging.ExecOk.all)
    (some (dm 4 "dm:b:u" "b" 20)) messaging.ExecOk.all

end api

/-! ## client/main.go: the channel a client connects to -/

namespace client

/-- The derivation inside `if *dmUser != ""`: `u1, u2 := *userID, *dmUser`, swapped when
`u1 > u2`, then `fmt.Sprintf("dm:%s:%s", u1, u2)`.  Go orders strings byte by byte, which is
the lexicographic order of the characters. -/
def dmChannelID (userID dmUser : String) : String :=
  if dmUser.data < userID.data then "dm:" ++ dmUser ++ ":" ++ userID
  else "dm:" ++ userID ++ ":" ++ dmUser

/-- The variable `finalChannelID` of `main`: the `-channel` flag unless the `-dm` flag is
given. -/
def finalChannelID (userID channelID dmUser : String) : String :=
  if dmUser ≠ "" then dmChannelID userID dmUser else channelID

end client

/-! ## apps/gateway/hub.go: the broadcast case, and the hubs of two evictions -/

namespace gateway

open model

/-- The `broadcast` case of `Hub.Run` up to `json.Marshal(msg)`: the envelope that is
serialized and published, the generator `h.snowflake` afterwards, and the clock readings
left.  `clock` is the wall clock in milliseconds as `Generate` reads it, `now` the reading
of `time.Now()` for the timestamp; `none` stands for a busy-wait of `Generate` that the
clock readings do not end. -/
def broadcastCase (node : snowflake.Node) (clock : List Int) (now : Time) (msg : Message) :
    Option (Message × snowflake.Node × List Int) :=
  let assigned : Option (Message × snowflake.Node × List Int) :=
    if msg.ID = 0 then
      match snowflake.Generate node clock with
      | none => none
      | some (id, node1, rest) => some ({ msg with ID := id }, node1, rest)
    else some (msg, node, clock)
  match assigned with
  | none => none
  | some (m1, node1, rest) =>
    some (if m1.Timestamp = 0 then { m1 with Timestamp := now } else m1, node1, rest)

/-- The hub after `slowDM` joined and 257 envelopes on `dm:a:b` were consumed with nothing
read from its queue: the last one found the queue full. -/
def evictedDMHub : Hub :=
  (NewHub.run (Event.register slowDM true 0 ::
    List.replicate 257 (Event.consume "raw" slowDMEnvelope))).getD NewHub

/-- The hub after `slowPlain` joined and 257 envelopes on `general` were consumed with
nothing read from its queue: the last one found the queue full. -/
def evictedPlainHub : Hub :=
  (NewHub.run (Event.register slowPlain true 0 ::
    List.replicate 257 (Event.consume "raw" plainEnvelope))).getD NewHub

/-- A DM that user `v` sends to user `u`. -/
def dmToU : Message :=
  { ID := 10, ChannelID := "dm:u:v", UserID := "v", Content := "hi", Type_ := TypeMessage,
    Timestamp := 1 }

end gateway

/-! ## Theorems -/

namespace snowflake

theorem compose_eq (now : Int) (n : Node) (hn : InRange now) (h0 : 0 ≤ n.node)
    (h1 : n.node ≤ 1023) (s0 : 0 ≤ n.step) (s1 : n.step ≤ 4095) (he : n.epoch = epoch) :
    compose now n = (now - epoch) * 4194304 + n.node * 4096 + n.step := by
  obtain ⟨hlo, hhi⟩ := hn
  norm_num at hhi
  obtain ⟨a, ha⟩ := Int.eq_ofNat_of_zero_le (show 0 ≤ now - epoch by omega)
  obtain ⟨b, hb⟩ := Int.eq_ofNat_of_zero_le h0
  obtain ⟨c, hc⟩ := Int.eq_ofNat_of_zero_le s0
  have e1 : shl64 (sub64 now n.epoch) timeShift = ((2 ^ 22 * a + 2 ^ 12 * 0 : Nat) : Int) := by
    simp only [shl64, sub64, wrap64, timeShift, nodeBits, stepBits, he]
    norm_num
    omega
  have e2 : shl64 n.node nodeShift = ((2 ^ 12 * b : Nat) : Int) := by
    simp only [shl64, wrap64, nodeShift, stepBits]
    norm_num
    omega
  have hb1 : b < 2 ^ 10 := by norm_num; omega
  have hc1 : c < 2 ^ 12 := by norm_num; omega
  have hbb : 2 ^ 12 * b < 2 ^ 22 := by norm_num; omega
  have k1 : (2 ^ 22 * a ||| 2 ^ 12 * b) = 2 ^ 22 * a + 2 ^ 12 * b :=
    (Nat.mul_add_lt_is_or hbb a).symm
  have k2 : ((2 ^ 22 * a + 2 ^ 12 * b) ||| c) = 2 ^ 22 * a + 2 ^ 12 * b + c := by
    have : 2 ^ 22 * a + 2 ^ 12 * b = 2 ^ 12 * (2 ^ 10 * a + b) := by ring
    rw [this]
    exact (Nat.mul_add_lt_is_or hc1 _).symm
  unfold compose
  rw [e1, e2, hc]
  show ((((2 ^ 22 * a + 2 ^ 12 * 0) ||| 2 ^ 12 * b) ||| c : Nat) : Int) = _
  simp only [Nat.mul_zero, Nat.add_zero]
  rw [k1, k2, ha, hb]
  push_cast
  ring

theorem spin_spec (last : Int) (rest : List Int) :
    ∀ (now now1 : Int) (rest1 : List Int), spin last now rest = some (now1, rest1) →
      last < now1 ∧ (now1 = now ∨ now1 ∈ rest) ∧ ∀ r ∈ rest1, r ∈ rest := by
  induction rest with
  | nil =>
    intro now now1 rest1 h
    simp only [spin] at h
    split at h
    · cases h
    · simp only [Option.some.injEq, Prod.mk.injEq] at h
      obtain ⟨h1, h2⟩ := h
      subst h1 h2
      exact ⟨by omega, Or.inl rfl, fun r hr => hr⟩
  | cons r rest ih =>
    intro now now1 rest1 h
    simp only [spin] at h
    split at h
    · obtain ⟨a, b, c⟩ := ih r now1 rest1 h
      refine ⟨a, Or.inr ?_, fun x hx => List.mem_cons_of_mem _ (c x hx)⟩
      rcases b with b | b
      · exact b ▸ List.mem_cons_self _ _
      · exact List.mem_cons_of_mem _ b
    · simp only [Option.some.injEq, Prod.mk.injEq] at h
      obtain ⟨h1, h2⟩ := h
      subst h1 h2
      exact ⟨by omega, Or.inl rfl, fun r hr => hr⟩

theorem land_stepMask (x : Int) (h0 : 0 ≤ x) : Int.land x stepMask = x % 4096 := by
  obtain ⟨a, ha⟩ := Int.eq_ofNat_of_zero_le h0
  subst ha
  show ((a &&& 4095 : Nat) : Int) = _
  have := Nat.and_pow_two_sub_one_eq_mod a 12
  norm_num at this
  rw [this]
  norm_cast

/-- One call of `Generate` on a good generator with readings in range: the generator stays
good, the ID packs the new state, and the packed value grows. -/
theorem Generate_step (n n1 : Node) (clock rest : List Int) (id : Int) (hg : Good n)
    (hc : ∀ r ∈ clock, InRange r) (h : Generate n clock = some (id, n1, rest)) :
    Good n1 ∧ InRange n1.time ∧ id = val n1 ∧ (∀ r ∈ rest, InRange r) ∧
      (InRange n.time → val n < val n1) := by
  obtain ⟨nl, nh, sl, sh, he, ht⟩ := hg
  cases clock with
  | nil => simp [Generate] at h
  | cons t rest0 =>
    have htR : InRange t := hc t (List.mem_cons_self _ _)
    have hrest0 : ∀ r ∈ rest0, InRange r := fun r hr => hc r (List.mem_cons_of_mem _ hr)
    have hnow : InRange (if t < n.time then n.time else t) := by
      split
      · rename_i hlt
        rcases ht with ht | ht
        · exfalso; have := htR.1; simp only [epoch] at this; omega
        · exact ht
      · exact htR
    have hle : n.time ≤ (if t < n.time then n.time else t) := by
      split
      · exact le_refl _
      · omega
    have hland : Int.land (add64 n.step 1) stepMask = (n.step + 1) % 4096 := by
      have : add64 n.step 1 = n.step + 1 := by simp only [add64, wrap64]; omega
      rw [this, land_stepMask _ (by omega)]
    simp only [Generate] at h
    rw [hland] at h
    generalize (if t < n.time then n.time else t) = now at h hnow hle
    split at h
    · rename_i heq
      split at h
      · rename_i hz
        split at h
        · cases h
        · rename_i now1 rest1 hs
          simp only [Option.some.injEq, Prod.mk.injEq] at h
          obtain ⟨h1, h2, h3⟩ := h
          subst h2 h3
          obtain ⟨a, b, c⟩ := spin_spec _ _ _ _ _ hs
          have hn1 : InRange now1 := by
            rcases b with b | b
            · rw [b]; exact hnow
            · exact hrest0 _ b
          have hgood : Good { n with step := (n.step + 1) % 4096, time := now1 } :=
            ⟨nl, nh, by show 0 ≤ (n.step + 1) % 4096; omega,
              by show (n.step + 1) % 4096 ≤ 4095; omega, he, Or.inr hn1⟩
          refine ⟨hgood, hn1, ?_, fun r hr => hrest0 r (c r hr), ?_⟩
          · rw [← h1]
            exact compose_eq _ _ hn1 hgood.node_lo hgood.node_hi hgood.step_lo hgood.step_hi he
          · intro _
            simp only [val]
            rw [hz]
            omega
      · rename_i hnz
        simp only [Option.some.injEq, Prod.mk.injEq] at h
        obtain ⟨h1, h2, h3⟩ := h
        subst h2 h3
        have hgood : Good { n with step := (n.step + 1) % 4096, time := now } :=
          ⟨nl, nh, by show 0 ≤ (n.step + 1) % 4096; omega,
            by show (n.step + 1) % 4096 ≤ 4095; omega, he, Or.inr hnow⟩
        refine ⟨hgood, hnow, ?_, hrest0, ?_⟩
        · rw [← h1]
          exact compose_eq _ _ hnow hgood.node_lo hgood.node_hi hgood.step_lo hgood.step_hi he
        · intro _
          simp only [val]
          rw [← heq]
          omega
    · rename_i hne
      simp only [Option.some.injEq, Prod.mk.injEq] at h
      obtain ⟨h1, h2, h3⟩ := h
      subst h2 h3
      have hgood : Good { n with step := 0, time := now } :=
        ⟨nl, nh, le_refl _, by show (0 : Int) ≤ 4095; omega, he, Or.inr hnow⟩
      refine ⟨hgood, hnow, ?_, hrest0, ?_⟩
      · rw [← h1]
        exact compose_eq _ _ hnow hgood.node_lo hgood.node_hi hgood.step_lo hgood.step_hi he
      · intro _
        simp only [val]
        have : n.time < now := lt_of_le_of_ne hle hne
        omega

/-- Successive IDs of a good generator grow, and the first one exceeds the packed state. -/
theorem generateMany_chain (k : Nat) : ∀ (n : Node) (clock ids : List Int), Good n →
    (∀ r ∈ clock, InRange r) → generateMany n clock k = some ids →
      List.Chain' (fun a b => a < b) ids ∧ (InRange n.time → ∀ i ∈ ids.head?, val n < i) := by
  induction k with
  | zero =>
    intro n clock ids _ _ h
    simp only [generateMany, Option.some.injEq] at h
    subst h
    simp
  | succ k ih =>
    intro n clock ids hg hc h
    simp only [generateMany] at h
    split at h
    · cases h
    · rename_i id n1 rest hgen
      split at h
      · cases h
      · rename_i ids1 hmany
        simp only [Option.some.injEq] at h
        subst h
        obtain ⟨g1, r1, e1, c1, lt1⟩ := Generate_step n n1 clock rest id hg hc hgen
        obtain ⟨ch, hd⟩ := ih n1 rest ids1 g1 c1 hmany
        refine ⟨?_, ?_⟩
        · cases ids1 with
          | nil => simp
          | cons x xs =>
            rw [List.chain'_cons]
            refine ⟨?_, ch⟩
            rw [e1]
            exact hd r1 x (by simp)
        · intro hr i hi
          simp only [List.head?_cons, Option.mem_def, Option.some.injEq] at hi
          subst hi
          rw [e1]
          exact lt1 hr

theorem NewNode_good (node : Int) (n : Node) (h : NewNode node = Except.ok n) : Good n := by
  unfold NewNode at h
  split at h
  · cases h
  · rename_i hn
    simp only [Except.ok.injEq] at h
    subst h
    simp only [nodeMax] at hn
    exact ⟨by show 0 ≤ node; omega, by show node ≤ 1023; omega, le_refl _,
      by show (0 : Int) ≤ 4095; omega, rfl, Or.inl rfl⟩

/-- The busy-wait ends as soon as the clock shows a reading after `last`. -/
theorem spin_returns (last : Int) (rest : List Int) :
    ∀ now, (last < now ∨ ∃ r ∈ rest, last < r) → (spin last now rest).isSome = true := by
  induction rest with
  | nil =>
    intro now h
    rcases h with h | ⟨r, hr, _⟩
    · simp only [spin, if_neg (not_le.mpr h), Option.isSome_some]
    · cases hr
  | cons r rest ih =>
    intro now h
    simp only [spin]
    split
    · rename_i hle
      apply ih
      rcases h with h | ⟨x, hx, hlt⟩
      · omega
      · rcases List.mem_cons.mp hx with hx | hx
        · exact Or.inl (hx ▸ hlt)
        · exact Or.inr ⟨x, hx, hlt⟩
    · rfl

/-- A call of `Generate` returns when the clock has a reading left and, after it, one that is
later than the last observed time (needed only when the sequence wraps). -/
theorem Generate_returns (n : Node) (t : Int) (rest : List Int)
    (h : ∃ r ∈ rest, n.time < r) : (Generate n (t :: rest)).isSome = true := by
  simp only [Generate]
  generalize (if t < n.time then n.time else t) = now
  by_cases h1 : n.time = now
  · rw [if_pos h1]
    by_cases h2 : Int.land (add64 n.step 1) stepMask = 0
    · rw [if_pos h2]
      have := spin_returns n.time rest now (Or.inr h)
      cases hs : spin n.time now rest with
      | none => rw [hs] at this; cases this
      | some p => rfl
    · rw [if_neg h2]
      rfl
  · rw [if_neg h1]
    rfl

/-- C1: for every generator built by `NewNode` and every sequence of wall-clock readings at
or after the epoch and within the 41-bit range (readings may go backwards), each ID returned
by `Generate` is strictly greater than the ID returned by the previous call. -/
theorem C1_generate_strictly_increasing (node : Int) (n : Node) (clock : List Int) (k : Nat)
    (ids : List Int) (hnew : NewNode node = Except.ok n)
    (hclock : ∀ r ∈ clock, epoch ≤ r ∧ r - epoch < 2 ^ 41)
    (hrun : generateMany n clock k = some ids) :
    List.Chain' (fun a b => a < b) ids :=
  (generateMany_chain k n clock ids (NewNode_good node n hnew) hclock hrun).1

/-! ### The fields of an ID -/

theorem timeOf_val (n : Node) (hg : Good n) (ht : InRange n.time) :
    timeOf (val n) = n.time - epoch := by
  obtain ⟨nl, nh, sl, sh, _, _⟩ := hg
  obtain ⟨hlo, hhi⟩ := ht
  simp only [timeOf, val, timeShift, nodeBits, stepBits, Int.shiftRight_eq_div_pow]
  norm_num
  omega

theorem stepOf_val (n : Node) (hg : Good n) (ht : InRange n.time) :
    stepOf (val n) = n.step := by
  obtain ⟨nl, nh, sl, sh, _, _⟩ := hg
  obtain ⟨hlo, hhi⟩ := ht
  have h0 : 0 ≤ val n := by
    simp only [val]
    omega
  rw [stepOf, land_stepMask _ h0]
  simp only [val]
  omega

/-- What one call of `Generate` does to the generator: same node and epoch, and either the
same time with the next sequence number or a later time with sequence zero. -/
theorem Generate_shape (n n1 : Node) (clock rest : List Int) (id : Int) (hg : Good n)
    (h : Generate n clock = some (id, n1, rest)) :
    n1.node = n.node ∧ n1.epoch = n.epoch ∧
      ((n1.time = n.time ∧ n1.step = n.step + 1) ∨ (n.time < n1.time ∧ n1.step = 0)) := by
  obtain ⟨nl, nh, sl, sh, he, ht⟩ := hg
  cases clock with
  | nil => simp [Generate] at h
  | cons t rest0 =>
    have hle : n.time ≤ (if t < n.time then n.time else t) := by
      split
      · exact le_refl _
      · omega
    have hland : Int.land (add64 n.step 1) stepMask = (n.step + 1) % 4096 := by
      have : add64 n.step 1 = n.step + 1 := by simp only [add64, wrap64]; omega
      rw [this, land_stepMask _ (by omega)]
    simp only [Generate] at h
    rw [hland] at h
    generalize (if t < n.time then n.time else t) = now at h hle
    split at h
    · rename_i heq
      split at h
      · rename_i hz
        split at h
        · cases h
        · rename_i now1 rest1 hs
          simp only [Option.some.injEq, Prod.mk.injEq] at h
          obtain ⟨_, h2, _⟩ := h
          subst h2
          obtain ⟨a, _, _⟩ := spin_spec _ _ _ _ _ hs
          exact ⟨rfl, rfl, Or.inr ⟨a, hz⟩⟩
      · rename_i hnz
        simp only [Option.some.injEq, Prod.mk.injEq] at h
        obtain ⟨_, h2, _⟩ := h
        subst h2
        refine ⟨rfl, rfl, Or.inl ⟨heq.symm, ?_⟩⟩
        show (n.step + 1) % 4096 = n.step + 1
        omega
    · rename_i hne
      simp only [Option.some.injEq, Prod.mk.injEq] at h
      obtain ⟨_, h2, _⟩ := h
      subst h2
      exact ⟨rfl, rfl, Or.inr ⟨lt_of_le_of_ne hle hne, rfl⟩⟩

/-- Successive IDs of a good generator follow one another, and the first one follows the
state the generator was in. -/
theorem generateMany_follows (k : Nat) : ∀ (n : Node) (clock ids : List Int), Good n →
    (∀ r ∈ clock, InRange r) → generateMany n clock k = some ids →
      List.Chain' Follows ids ∧ (InRange n.time → ∀ i ∈ ids.head?, Follows (val n) i) := by
  induction k with
  | zero =>
    intro n clock ids _ _ h
    simp only [generateMany, Option.some.injEq] at h
    subst h
    simp
  | succ k ih =>
    intro n clock ids hg hc h
    simp only [generateMany] at h
    split at h
    · cases h
    · rename_i id n1 rest hgen
      split at h
      · cases h
      · rename_i ids1 hmany
        simp only [Option.some.injEq] at h
        subst h
        obtain ⟨g1, r1, e1, c1, _⟩ := Generate_step n n1 clock rest id hg hc hgen
        obtain ⟨_, _, hshape⟩ := Generate_shape n n1 clock rest id hg hgen
        obtain ⟨ch, hd⟩ := ih n1 rest ids1 g1 c1 hmany
        refine ⟨?_, ?_⟩
        · cases ids1 with
          | nil => simp
          | cons x xs =>
            rw [List.chain'_cons]
            refine ⟨?_, ch⟩
            rw [e1]
            exact hd r1 x (by simp)
        · intro hr i hi
          simp only [List.head?_cons, Option.mem_def, Option.some.injEq] at hi
          subst hi
          rw [e1]
          unfold Follows
          rw [timeOf_val n1 g1 r1, timeOf_val n hg hr, stepOf_val n1 g1 r1, stepOf_val n hg hr]
          rcases hshape with ⟨a, b⟩ | ⟨a, b⟩
          · exact Or.inl ⟨by rw [a], b⟩
          · exact Or.inr ⟨by omega, b⟩

/-- C1 at a concrete run: node 1, the clock steps back by one second after the first reading. -/
theorem C1_generate_strictly_increasing_witness :
    NewNode 1 = Except.ok { time := 0, node := 1, step := 0, epoch := epoch } ∧
    (∀ r ∈ [epoch + 5000, epoch + 4000, epoch + 4500, epoch + 5001],
      epoch ≤ r ∧ r - epoch < 2 ^ 41) ∧
    generateMany { time := 0, node := 1, step := 0, epoch := epoch }
      [epoch + 5000, epoch + 4000, epoch + 4500, epoch + 5001] 4
      = some [20971524096, 20971524097, 20971524098, 20975718400] ∧
    List.Chain' (fun a b => a < b)
      [(20971524096 : Int), 20971524097, 20971524098, 20975718400] :=
  ⟨rfl, by decide, by decide,
    C1_generate_strictly_increasing 1 _ [epoch + 5000, epoch + 4000, epoch + 4500, epoch + 5001] 4
      _ rfl (by decide) (by decide)⟩

/-- An ID composed from in-range fields is the packed integer and fits a signed 64-bit
integer. -/
theorem compose_bounds (now : Int) (n : Node) (hn : InRange now) (h0 : 0 ≤ n.node)
    (h1 : n.node ≤ 1023) (s0 : 0 ≤ n.step) (s1 : n.step ≤ 4095) (he : n.epoch = epoch) :
    timeOf (compose now n) = now - epoch ∧ 0 ≤ compose now n ∧
      compose now n < 9223372036854775808 := by
  rw [compose_eq now n hn h0 h1 s0 s1 he]
  obtain ⟨hlo, hhi⟩ := hn
  norm_num at hhi
  refine ⟨?_, by omega, by omega⟩
  simp only [timeOf, timeShift, nodeBits, stepBits, Int.shiftRight_eq_div_pow]
  norm_num
  omega

/-- C14: for two IDs composed with the same node (node in 0..1023, sequences in 0..4095,
milliseconds since the epoch in 0..2^41-1), the time field of each is its milliseconds since
the epoch, both IDs are non-negative and below 2^63 (so they compare as signed 64-bit
integers the way they compare as integers), and if the time field of the first is less than
the time field of the second then the first ID is less than the second, whatever the
sequence fields are. -/
theorem C14_time_field_orders_ids (na nb : Node) (ta tb : Int)
    (hnode : na.node = nb.node) (hn0 : 0 ≤ na.node) (hn1 : na.node ≤ 1023)
    (sa0 : 0 ≤ na.step) (sa1 : na.step ≤ 4095) (sb0 : 0 ≤ nb.step) (sb1 : nb.step ≤ 4095)
    (ea : na.epoch = epoch) (eb : nb.epoch = epoch)
    (ha : epoch ≤ ta ∧ ta - epoch < 2 ^ 41) (hb : epoch ≤ tb ∧ tb - epoch < 2 ^ 41) :
    timeOf (compose ta na) = ta - epoch ∧ timeOf (compose tb nb) = tb - epoch ∧
    (0 ≤ compose ta na ∧ compose ta na < 2 ^ 63) ∧
    (0 ≤ compose tb nb ∧ compose tb nb < 2 ^ 63) ∧
    (timeOf (compose ta na) < timeOf (compose tb nb) → compose ta na < compose tb nb) := by
  have hbn0 : 0 ≤ nb.node := hnode ▸ hn0
  have hbn1 : nb.node ≤ 1023 := hnode ▸ hn1
  obtain ⟨a1, a2, a3⟩ := compose_bounds ta na ha hn0 hn1 sa0 sa1 ea
  obtain ⟨b1, b2, b3⟩ := compose_bounds tb nb hb hbn0 hbn1 sb0 sb1 eb
  refine ⟨a1, b1, ⟨a2, by norm_num; exact a3⟩, ⟨b2, by norm_num; exact b3⟩, ?_⟩
  rw [a1, b1, compose_eq ta na ha hn0 hn1 sa0 sa1 ea, compose_eq tb nb hb hbn0 hbn1 sb0 sb1 eb,
    hnode]
  intro hlt
  omega

/-- C14 on node 1: a full sequence field in one millisecond stays below an empty one in the
next. -/
theorem C14_time_field_orders_ids_witness :
    compose (epoch + 5) { time := 0, node := 1, step := 4095, epoch := epoch } = 20979711 ∧
    compose (epoch + 6) { time := 0, node := 1, step := 0, epoch := epoch } = 25169920 ∧
    compose (epoch + 5) { time := 0, node := 1, step := 4095, epoch := epoch } <
      compose (epoch + 6) { time := 0, node := 1, step := 0, epoch := epoch } :=
  ⟨by decide, by decide,
    (C14_time_field_orders_ids { time := 0, node := 1, step := 4095, epoch := epoch }
      { time := 0, node := 1, step := 0, epoch := epoch } (epoch + 5) (epoch + 6) rfl
      (by decide) (by decide) (by decide) (by decide) (by decide) (by decide) rfl rfl
      (by decide) (by decide)).2.2.2.2 (by decide)⟩

/-- C15 (refuted as stated): three calls in the same millisecond return IDs with sequences
0, 1 and 2; the first and the third are two IDs of the same millisecond (equal time fields)
whose sequences differ by two. -/
theorem C15_same_millisecond_counterexample :
    NewNode 1 = Except.ok { time := 0, node := 1, step := 0, epoch := epoch } ∧
    generateMany { time := 0, node := 1, step := 0, epoch := epoch }
      [epoch + 5, epoch + 5, epoch + 5] 3 = some [20975616, 20975617, 20975618] ∧
    timeOf 20975616 = timeOf 20975618 ∧ stepOf 20975616 = 0 ∧ stepOf 20975618 = 2 :=
  ⟨rfl, by decide, by decide, by decide, by decide⟩

/-- C15 (amended): for a generator built by `NewNode` and clock readings in range, any two
IDs returned by consecutive calls of `Generate` either have equal time fields (same
millisecond) and the sequence of the second is the sequence of the first plus one, or the
second has a greater time field and sequence zero. -/
theorem C15_consecutive_ids_amended (node : Int) (n : Node) (clock : List Int) (k : Nat)
    (ids : List Int) (hnew : NewNode node = Except.ok n)
    (hclock : ∀ r ∈ clock, epoch ≤ r ∧ r - epoch < 2 ^ 41)
    (hrun : generateMany n clock k = some ids) :
    List.Chain' (fun a b => (timeOf b = timeOf a ∧ stepOf b = stepOf a + 1) ∨
      (timeOf a < timeOf b ∧ stepOf b = 0)) ids :=
  (generateMany_follows k n clock ids (NewNode_good node n hnew) hclock hrun).1

/-- C15 (amended) on three calls in one millisecond followed by one in the next. -/
theorem C15_consecutive_ids_amended_witness :
    generateMany { time := 0, node := 1, step := 0, epoch := epoch }
      [epoch + 5, epoch + 5, epoch + 5, epoch + 6] 4
      = some [20975616, 20975617, 20975618, 25169920] ∧
    List.Chain' (fun a b => (timeOf b = timeOf a ∧ stepOf b = stepOf a + 1) ∨
      (timeOf a < timeOf b ∧ stepOf b = 0)) [(20975616 : Int), 20975617, 20975618, 25169920] :=
  ⟨by decide,
    C15_consecutive_ids_amended 1 _ [epoch + 5, epoch + 5, epoch + 5, epoch + 6] 4 _ rfl
      (by decide) (by decide)⟩

/-- C16: `NewNode node` fails exactly when `node < 0` or `node ≥ 1024`; when it succeeds the
generator holds that node with last time 0, sequence 0 and the epoch; `Generate` has no
failure result, and a call returns an ID on the fresh generator as soon as the clock gives
one reading, and in every state of the generator as soon as the clock, after the first
reading, shows a time later than the last one observed (which ends the busy-wait). -/
theorem C16_newnode_range_generate_total (node : Int) :
    ((∃ e, NewNode node = Except.error e) ↔ node < 0 ∨ node ≥ 1024) ∧
    (∀ n, NewNode node = Except.ok n →
      n = { time := 0, node := node, step := 0, epoch := epoch } ∧
      (∀ t rest, (Generate n (t :: rest)).isSome = true)) ∧
    (∀ (m : Node) t rest, (∃ r ∈ rest, m.time < r) → (Generate m (t :: rest)).isSome = true) := by
  refine ⟨?_, ?_, fun m t rest h => Generate_returns m t rest h⟩
  · unfold NewNode
    simp only [nodeMax]
    constructor
    · rintro ⟨e, he⟩
      split at he
      · rename_i hc
        omega
      · cases he
    · intro h
      rw [if_pos (by omega)]
      exact ⟨_, rfl⟩
  · intro n hn
    unfold NewNode at hn
    split at hn
    · cases hn
    · simp only [Except.ok.injEq] at hn
      subst hn
      refine ⟨rfl, fun t rest => ?_⟩
      simp only [Generate]
      by_cases h1 : (0 : Int) = if t < 0 then 0 else t
      · rw [if_pos h1]
        have hs : Int.land (add64 0 1) stepMask ≠ 0 := by decide
        rw [if_neg hs]
        rfl
      · rw [if_neg h1]
        rfl

/-- C16 on node 1 (accepted, and the first call returns) and node 1024 (refused). -/
theorem C16_newnode_range_generate_total_witness :
    NewNode 1 = Except.ok { time := 0, node := 1, step := 0, epoch := epoch } ∧
    (Generate { time := 0, node := 1, step := 0, epoch := epoch } [epoch + 5]).isSome = true ∧
    (∃ e, NewNode 1024 = Except.error e) ∧
    (Generate { time := epoch + 9, node := 1, step := 4095, epoch := epoch }
      [epoch + 9, epoch + 9, epoch + 10]).isSome = true :=
  ⟨rfl,
    ((C16_newnode_range_generate_total 1).2.1 _ rfl).2 (epoch + 5) [],
    (C16_newnode_range_generate_total 1024).1.mpr (Or.inr (by decide)),
    (C16_newnode_range_generate_total 1).2.2
      { time := epoch + 9, node := 1, step := 4095, epoch := epoch } (epoch + 9)
      [epoch + 9, epoch + 10] ⟨epoch + 10, by decide, by decide⟩⟩

end snowflake

namespace gateway

open model

/-! ### Sets and keys -/

theorem mem_delete (l : ClientSet) (c x : Client) :
    x ∈ ClientSet.delete l c ↔ x ∈ l ∧ x ≠ c := by
  simp [ClientSet.delete]

theorem delete_of_not_mem (l : ClientSet) (c : Client) (h : c ∉ l) :
    ClientSet.delete l c = l := by
  unfold ClientSet.delete
  rw [List.filter_eq_self]
  intro a ha
  simp only [ne_eq, decide_eq_true_eq]
  rintro rfl
  exact h ha

theorem unregisterUser_clients (h : Hub) (s : Client) :
    (h.unregisterUser s).clients = h.clients ∧ (h.unregisterUser s).redis = h.redis ∧
      (h.unregisterUser s).send = h.send ∧ (h.unregisterUser s).broadcast = h.broadcast := by
  unfold Hub.unregisterUser
  split
  · split <;> simp
  · simp

theorem unregisterUser_byUser (h : Hub) (s : Client) (u : String) :
    (h.unregisterUser s).byUser u =
      if u = s.ID then ClientSet.delete (h.byUser u) s else h.byUser u := by
  unfold Hub.unregisterUser Hub.byUser
  by_cases hu : u = s.ID
  · subst hu
    simp only [if_true]
    split
    · rename_i clients hcl
      split
      · split
        · rename_i hlen
          simp only [Function.update_same, Option.getD_none, hcl, Option.getD_some]
          exact (List.length_eq_zero.mp hlen).symm
        · simp [hcl]
      · rename_i hnot
        simp only [hcl, Option.getD_some]
        exact (delete_of_not_mem _ _ hnot).symm
    · rename_i hnone
      simp [hnone, ClientSet.delete]
  · simp only [if_neg hu]
    split
    · split
      · split <;> simp [Function.update_noteq hu]
      · rfl
    · rfl

theorem unregisterChannel_byChannel (h h1 : Hub) (s : Client) (kvOk : Bool) (now : Time)
    (hs : h.unregisterChannel s kvOk now = some h1) (c : String) :
    h1.byChannel c =
      if c = s.ChannelID then ClientSet.delete (h.byChannel c) s else h.byChannel c := by
  unfold Hub.unregisterChannel at hs
  unfold Hub.byChannel
  split at hs
  · rename_i clients hcl
    split at hs
    · split at hs
      · cases hs
      · simp only [Option.some.injEq] at hs
        subst hs
        by_cases hc : c = s.ChannelID
        · subst hc
          simp only [if_true, hcl, Option.getD_some]
          split
          · rename_i hlen
            simp only [Function.update_same, Option.getD_none]
            exact (List.length_eq_zero.mp hlen).symm
          · simp
        · simp only [if_neg hc]
          split <;> simp [Function.update_noteq hc]
    · rename_i hnot
      simp only [Option.some.injEq] at hs
      subst hs
      by_cases hc : c = s.ChannelID
      · subst hc
        simp only [if_true, hcl, Option.getD_some]
        exact (delete_of_not_mem _ _ hnot).symm
      · simp [hc]
  · rename_i hnone
    simp only [Option.some.injEq] at hs
    subst hs
    by_cases hc : c = s.ChannelID
    · subst hc
      simp [hnone, ClientSet.delete]
    · simp [hc]

theorem unregisterChannel_of_not_mem (h : Hub) (s : Client) (kvOk : Bool) (now : Time)
    (hs : s ∉ h.byChannel s.ChannelID) : h.unregisterChannel s kvOk now = some h := by
  unfold Hub.unregisterChannel
  unfold Hub.byChannel at hs
  split
  · rename_i clients hcl
    rw [hcl] at hs
    simp only [Option.getD_some] at hs
    rw [if_neg hs]
  · rfl

theorem unregisterUser_of_not_mem (h : Hub) (s : Client) (hs : s ∉ h.byUser s.ID) :
    h.unregisterUser s = h := by
  unfold Hub.unregisterUser
  unfold Hub.byUser at hs
  split
  · rename_i clients hcl
    rw [hcl] at hs
    simp only [Option.getD_some] at hs
    rw [if_neg hs]
  · rfl

theorem unregister_fixed (h h2 : Hub) (s : Client) (kv1 kv2 : Bool) (t1 t2 : Time)
    (hs : h.unregister s kv1 t1 = some h2) : h2.unregister s kv2 t2 = some h2 := by
  unfold Hub.unregister at hs
  split at hs
  · cases hs
  · rename_i h1 hch
    simp only [Option.some.injEq] at hs
    subst hs
    have e1 : (h1.unregisterUser s).byChannel s.ChannelID = h1.byChannel s.ChannelID := by
      unfold Hub.byChannel
      rw [(unregisterUser_clients h1 s).1]
    have n1 : s ∉ (h1.unregisterUser s).byChannel s.ChannelID := by
      rw [e1, unregisterChannel_byChannel h h1 s kv1 t1 hch, if_pos rfl, mem_delete]
      exact fun hh => hh.2 rfl
    have n2 : s ∉ (h1.unregisterUser s).byUser s.ID := by
      rw [unregisterUser_byUser, if_pos rfl, mem_delete]
      exact fun hh => hh.2 rfl
    unfold Hub.unregister
    rw [unregisterChannel_of_not_mem _ _ _ _ n1]
    simp only [unregisterUser_of_not_mem _ _ n2]

/-- C10: handling unregister twice for a Session gives the same hub (both maps, the presence
sets, every queue, and the list of emitted presence envelopes, so no second `left`) as
handling it once; a panic of the first handling ends the run in both cases.  Unregister for
a Session that is in no bucket of either map returns the hub unchanged. -/
theorem C10_unregister_idempotent (h : Hub) (s : Client) (kv1 kv2 : Bool) (t1 t2 : Time) :
    ((h.unregister s kv1 t1).bind fun h1 => h1.unregister s kv2 t2) = h.unregister s kv1 t1 ∧
    ((∀ c, s ∉ h.byChannel c) → (∀ u, s ∉ h.byUser u) → h.unregister s kv1 t1 = some h) := by
  constructor
  · cases hs : h.unregister s kv1 t1 with
    | none => rfl
    | some h2 => exact unregister_fixed h h2 s kv1 kv2 t1 t2 hs
  · intro hc hu
    unfold Hub.unregister
    rw [unregisterChannel_of_not_mem _ _ _ _ (hc _)]
    simp only [unregisterUser_of_not_mem _ _ (hu _)]

/-- C10 at a registered session (second handling changes nothing) and at the empty hub. -/
theorem C10_unregister_idempotent_witness :
    (∃ h1, (NewHub.register { addr := 1, ID := "U1", ChannelID := "c1" } true 0).unregister
        { addr := 1, ID := "U1", ChannelID := "c1" } true 1 = some h1 ∧
      h1.unregister { addr := 1, ID := "U1", ChannelID := "c1" } true 2 = some h1 ∧
      h1.broadcast.length = 2) ∧
    (∀ c, ({ addr := 1, ID := "U1", ChannelID := "c1" } : Client) ∉ NewHub.byChannel c) ∧
    (∀ u, ({ addr := 1, ID := "U1", ChannelID := "c1" } : Client) ∉ NewHub.byUser u) ∧
    NewHub.unregister { addr := 1, ID := "U1", ChannelID := "c1" } true 1 = some NewHub :=
  ⟨⟨_, rfl,
      (C10_unregister_idempotent (NewHub.register { addr := 1, ID := "U1", ChannelID := "c1" } true 0)
        { addr := 1, ID := "U1", ChannelID := "c1" } true true 1 2).1, rfl⟩,
    fun _ => List.not_mem_nil _, fun _ => List.not_mem_nil _,
    (C10_unregister_idempotent NewHub { addr := 1, ID := "U1", ChannelID := "c1" } true true 1 2).2
      (fun _ => List.not_mem_nil _) (fun _ => List.not_mem_nil _)⟩

/-! ### Presence against the channel map -/

theorem isDM_iff (s : String) :
    strings.isDM s = true ↔ ∃ c rest, s.data = 'd' :: 'm' :: ':' :: c :: rest := by
  unfold strings.isDM
  rcases s.data with _ | ⟨a, _ | ⟨b, _ | ⟨c, _ | ⟨d, rest⟩⟩⟩⟩ <;> simp

theorem isDM_of_begins (s : String) (hp : ['d', 'm', ':'] <+: s.data) (hne : s ≠ "dm:") :
    strings.isDM s = true := by
  rw [isDM_iff]
  obtain ⟨t, ht⟩ := hp
  cases t with
  | nil =>
    exfalso
    apply hne
    apply String.ext
    rw [← ht]
    rfl
  | cons c rest => exact ⟨c, rest, ht.symm⟩

theorem eq_some_getD {α : Type} (o : Option α) (d : α) (h : o.isSome = true) :
    o = some (o.getD d) := by
  cases o with
  | none => cases h
  | some a => rfl

/-- C2 (the code at the failing inputs).  Plain channel: Session `u` joins `general`, 256
envelopes fill its queue, the next fanout offers it the envelope, closes the queue and takes
the Session out of `by_channel["general"]`, and the Session is still in `by_user["u"]`.
DM: Session `a` joins `dm:a:b`, 256 envelopes fill its queue, the next fanout closes the
queue and takes the Session out of `by_user["a"]`, and the Session is still in
`by_channel["dm:a:b"]`. -/
theorem C2_fanout_eviction_keeps_other_map :
    (NewHub.run (Event.register slowPlain true 0 ::
        List.replicate 256 (Event.consume "raw" plainEnvelope)) = some slowPlainHub ∧
      (slowPlainHub.send slowPlain).closed = false ∧
      (slowPlainHub.send slowPlain).buf.length = sendCap ∧
      slowPlainHub.fanout "raw" plainEnvelope = some slowPlainAfter ∧
      slowPlainAfter.2 = [slowPlain] ∧
      (slowPlainAfter.1.send slowPlain).closed = true ∧
      slowPlain ∉ slowPlainAfter.1.byChannel "general" ∧
      slowPlain ∈ slowPlainAfter.1.byUser "u") ∧
    (NewHub.run (Event.register slowDM true 0 ::
        List.replicate 256 (Event.consume "raw" slowDMEnvelope)) = some slowDMHub ∧
      (slowDMHub.send slowDM).closed = false ∧
      (slowDMHub.send slowDM).buf.length = sendCap ∧
      slowDMHub.fanout "raw" slowDMEnvelope = some slowDMAfter ∧
      slowDMAfter.2 = [slowDM] ∧
      (slowDMAfter.1.send slowDM).closed = true ∧
      slowDM ∉ slowDMAfter.1.byUser "a" ∧
      slowDM ∈ slowDMAfter.1.byChannel "dm:a:b") :=
  ⟨⟨eq_some_getD _ _ (by decide!), by decide!, by decide!, eq_some_getD _ _ (by decide!),
      by decide!, by decide!, by decide!, by decide!⟩,
   ⟨eq_some_getD _ _ (by decide!), by decide!, by decide!, eq_some_getD _ _ (by decide!),
      by decide!, by decide!, by decide!, by decide!⟩⟩

end gateway

namespace strings

theorem splitChars_ne_nil (sep : Char) (l : List Char) : splitChars sep l ≠ [] := by
  cases l with
  | nil => simp [splitChars]
  | cons c cs =>
    simp only [splitChars]
    split
    · simp
    · split <;> simp

theorem joinChars_cons_cons (sep c : Char) (p : List Char) (ps : List (List Char)) :
    joinChars sep ((c :: p) :: ps) = c :: joinChars sep (p :: ps) := by
  cases ps <;> simp [joinChars]

theorem joinChars_splitChars (sep : Char) (l : List Char) :
    joinChars sep (splitChars sep l) = l := by
  induction l with
  | nil => simp [splitChars, joinChars]
  | cons c cs ih =>
    simp only [splitChars]
    split
    · rename_i hc
      cases hs : splitChars sep cs with
      | nil => exact absurd hs (splitChars_ne_nil sep cs)
      | cons q rest =>
        rw [hs] at ih
        simp only [joinChars, List.nil_append, ih, hc]
    · split
      · rename_i hs
        exact absurd hs (splitChars_ne_nil sep cs)
      · rename_i p ps hs
        rw [hs] at ih
        rw [joinChars_cons_cons, ih]

/-- A string that splits into three parts is those parts with colons between them. -/
theorem data_of_split3 (s p u1 u2 : String) (h : Split s ':' = [p, u1, u2]) :
    s.data = p.data ++ ':' :: (u1.data ++ ':' :: u2.data) := by
  unfold Split at h
  have h1 := congrArg (List.map String.data) h
  simp only [List.map_map, List.map_cons, List.map_nil] at h1
  have h2 : List.map (String.data ∘ String.mk) (splitChars ':' s.data) = splitChars ':' s.data := by
    have : (String.data ∘ String.mk) = id := rfl
    rw [this, List.map_id]
  rw [h2] at h1
  have h3 := joinChars_splitChars ':' s.data
  rw [h1] at h3
  simp only [joinChars] at h3
  exact h3.symm

theorem isDM_of_split3 (s u1 u2 : String) (h : Split s ':' = ["dm", u1, u2]) :
    isDM s = true := by
  have hd := data_of_split3 s "dm" u1 u2 h
  unfold isDM
  rw [hd]
  cases u1.data <;> simp

end strings

namespace db

open model

theorem lookup_cons_if (k a : String) (b : Time) (es : ConversationRows) :
    List.lookup k ((a, b) :: es) = if k = a then some b else List.lookup k es := by
  rw [List.lookup_cons]
  by_cases h : k = a
  · subst h
    simp
  · have hb : (k == a) = false := by simpa using h
    rw [hb, if_neg h]

theorem lookup_upsertRow (rows : ConversationRows) (o : String) (ts : Time) (o1 : String) :
    (upsertRow rows o ts).lookup o1 = if o1 = o then some ts else rows.lookup o1 := by
  induction rows with
  | nil => simp only [upsertRow, lookup_cons_if, List.lookup_nil]
  | cons r rest ih =>
    obtain ⟨a, t⟩ := r
    simp only [upsertRow]
    by_cases h1 : a = o
    · subst h1
      simp only [if_true, lookup_cons_if]
      by_cases h : o1 = a <;> simp [h]
    · simp only [if_neg h1]
      by_cases h2 : o.data < a.data
      · simp only [if_pos h2, lookup_cons_if]
      · simp only [if_neg h2, lookup_cons_if, ih]
        by_cases h : o1 = o
        · subst h
          have : o1 ≠ a := fun e => h1 e.symm
          simp [this]
        · simp [h]

theorem lastUpdated_insertConversation (s : Session) (u o : String) (ts : Time)
    (u1 o1 : String) :
    (s.insertConversation u o ts).lastUpdated u1 o1 =
      if u1 = u ∧ o1 = o then some ts else s.lastUpdated u1 o1 := by
  unfold Session.lastUpdated Session.insertConversation
  by_cases hu : u1 = u
  · subst hu
    simp only [Function.update_same, lookup_upsertRow, true_and]
  · simp [Function.update_noteq hu, hu]

end db

namespace messaging

open model

/-- C4: for every envelope whose type is not `message`, the per-envelope step of the
Persistence Consumer returns the store it was given: history table, conversation index and
unread counters are unchanged, whichever statements would have failed. -/
theorem C4_ephemeral_not_persisted (s : db.Session) (msg : Message) (ok : ExecOk)
    (h : msg.Type_ ≠ TypeMessage) : ConsumeStep s (some msg) ok = s := by
  simp only [ConsumeStep, if_pos h]

/-- C4 on a `typing` envelope sent on a DM channel. -/
theorem C4_ephemeral_not_persisted_witness :
    ConsumeStep db.Session.empty
      (some { ID := 5, ChannelID := "dm:a:b", UserID := "a", Content := "", Type_ := TypeTyping,
              Timestamp := 3 }) ExecOk.all = db.Session.empty :=
  C4_ephemeral_not_persisted db.Session.empty
    { ID := 5, ChannelID := "dm:a:b", UserID := "a", Content := "", Type_ := TypeTyping,
      Timestamp := 3 } ExecOk.all (by decide)

/-- C5: for an envelope of type `message` on the channel that splits into `dm`, `u1`, `u2`
with `u1 ≠ u2`, sent by `u1` or `u2`, with no store failure, the step yields exactly this
store: the history row `(channel_id, id)` holds the envelope and all other history rows are
as before; the conversation rows `(u1, u2)` and `(u2, u1)` have `last_updated` equal to the
envelope's timestamp and all other conversation rows are as before; the counter of
`(recipient, sender)`, the recipient being the participant that is not the sender, is its
prior value (zero when it has no row) plus one and all other counters are as before. -/
theorem C5_dm_persisted (s : db.Session) (msg : Message) (u1 u2 recipient : String)
    (hty : msg.Type_ = TypeMessage) (hch : strings.Split msg.ChannelID ':' = ["dm", u1, u2])
    (hne : u1 ≠ u2) (hsender : msg.UserID = u1 ∨ msg.UserID = u2)
    (hrec : recipient = u1 ∨ recipient = u2) (hrs : recipient ≠ msg.UserID) :
    (ConsumeStep s (some msg) ExecOk.all).messages =
        Function.update s.messages (msg.ChannelID, msg.ID)
          (some { user_id := msg.UserID, content := msg.Content, timestamp := msg.Timestamp }) ∧
    (∀ u o, (ConsumeStep s (some msg) ExecOk.all).lastUpdated u o =
        if (u = u1 ∧ o = u2) ∨ (u = u2 ∧ o = u1) then some msg.Timestamp
        else s.lastUpdated u o) ∧
    (ConsumeStep s (some msg) ExecOk.all).conversation_counters =
        Function.update s.conversation_counters (recipient, msg.UserID)
          (some ((s.conversation_counters (recipient, msg.UserID)).getD 0 + 1)) := by
  have hdm := strings.isDM_of_split3 _ u1 u2 hch
  have hrecip : (if u1 = msg.UserID then u2 else u1) = recipient := by
    rcases hsender with hs | hs
    · rw [if_pos hs.symm]
      rcases hrec with hr | hr
      · exact absurd (hr.trans hs.symm) hrs
      · exact hr.symm
    · have : u1 ≠ msg.UserID := fun e => hne (e.trans hs)
      rw [if_neg this]
      rcases hrec with hr | hr
      · exact hr.symm
      · exact absurd (hr.trans hs.symm) hrs
  have hstep : ConsumeStep s (some msg) ExecOk.all =
      (((s.insertMessage msg).insertConversation u1 u2 msg.Timestamp).insertConversation
        u2 u1 msg.Timestamp).incrementCounter recipient msg.UserID := by
    simp only [ConsumeStep, hty, ne_eq, not_true_eq_false, if_false, hdm, if_true, hch,
      ExecOk.all, hrecip]
  rw [hstep]
  refine ⟨rfl, ?_, rfl⟩
  intro u o
  have e1 : ∀ t : db.Session, ∀ a b, (t.incrementCounter a b).lastUpdated u o = t.lastUpdated u o :=
    fun _ _ _ => rfl
  have e2 : (s.insertMessage msg).lastUpdated u o = s.lastUpdated u o := rfl
  rw [e1, db.lastUpdated_insertConversation, db.lastUpdated_insertConversation, e2]
  by_cases h2 : u = u2 ∧ o = u1
  · simp [h2]
  · by_cases h1 : u = u1 ∧ o = u2
    · simp [h1, h2]
    · simp [h1, h2]

/-- C5 on the first DM that `a` sends to `b`. -/
theorem C5_dm_persisted_witness :
    (ConsumeStep db.Session.empty
        (some { ID := 5, ChannelID := "dm:a:b", UserID := "a", Content := "hi",
                Type_ := TypeMessage, Timestamp := 3 }) ExecOk.all).conversation_counters =
      Function.update db.Session.empty.conversation_counters ("b", "a") (some 1) :=
  (C5_dm_persisted db.Session.empty
    { ID := 5, ChannelID := "dm:a:b", UserID := "a", Content := "hi", Type_ := TypeMessage,
      Timestamp := 3 } "a" "b" "b" rfl (by decide) (by decide) (Or.inl rfl) (Or.inr rfl)
    (by decide)).2.2

end messaging

namespace gateway

open model

/-- C7 (refuted as stated): the channel `dm:` begins with `dm:` and splits on `:` into two
parts, and admission lets user `u` proceed to upgrade and registers the Session on it. -/
theorem C7_admission_counterexample :
    ['d', 'm', ':'] <+: ("dm:" : String).data ∧ (strings.Split "dm:" ':').length = 2 ∧
    serveWs auth.verifierU true 1 { authorization := "Bearer tok-u", token := "", channel := "dm:" }
      = Admission.admitted { addr := 1, ID := "u", ChannelID := "dm:" } := by
  decide

/-- C7 (amended): for every authenticated user and every requested channel that begins with
`dm:` and is longer than `dm:`, admission lets the connection proceed to upgrade only if
splitting the channel on `:` yields exactly three parts and the user equals the second or
the third part; otherwise it rejects with HTTP 400 (wrong number of parts) or 403 (user is
not a participant).  So every envelope that a Session admitted on such a channel sends has
a sender that is one of the channel's two participants. -/
theorem C7_dm_admission_amended (ValidateToken : String → Option auth.Claims) (upgradeOk : Bool)
    (addr : Nat) (r : Request) (claims : auth.Claims)
    (htoken : (if r.authorization = "" then r.token else r.authorization) ≠ "")
    (hvalid : ValidateToken
      (auth.stripBearer (if r.authorization = "" then r.token else r.authorization)) = some claims)
    (hbegins : ['d', 'm', ':'] <+: r.channel.data) (hlonger : r.channel ≠ "dm:") :
    ((strings.Split r.channel ':').length ≠ 3 →
      serveWs ValidateToken upgradeOk addr r = Admission.reject 400 "Invalid DM channel format") ∧
    (∀ p a b, strings.Split r.channel ':' = [p, a, b] → a ≠ claims.UserID → b ≠ claims.UserID →
      serveWs ValidateToken upgradeOk addr r =
        Admission.reject 403 "Unauthorized to join this DM") ∧
    (∀ p a b, strings.Split r.channel ':' = [p, a, b] → a = claims.UserID ∨ b = claims.UserID →
      serveWs ValidateToken upgradeOk addr r =
        if upgradeOk then
          Admission.admitted { addr := addr, ID := claims.UserID, ChannelID := r.channel }
        else Admission.upgradeFailed) ∧
    (∀ client, serveWs ValidateToken upgradeOk addr r = Admission.admitted client →
      ∀ type_ content now, ∃ p a b,
        strings.Split (client.envelope type_ content now).ChannelID ':' = [p, a, b] ∧
        ((client.envelope type_ content now).UserID = a ∨
          (client.envelope type_ content now).UserID = b)) := by
  have hdm := isDM_of_begins _ hbegins hlonger
  have hch : r.channel ≠ "" := by
    intro e
    rw [e] at hdm
    exact absurd hdm (by decide)
  have hserve : serveWs ValidateToken upgradeOk addr r =
      match strings.Split r.channel ':' with
      | [_, p1, p2] =>
        if p1 ≠ claims.UserID ∧ p2 ≠ claims.UserID then
          Admission.reject 403 "Unauthorized to join this DM"
        else if upgradeOk then
          Admission.admitted { addr := addr, ID := claims.UserID, ChannelID := r.channel }
        else Admission.upgradeFailed
      | _ => Admission.reject 400 "Invalid DM channel format" := by
    simp only [serveWs, if_neg htoken, hvalid, if_neg hch, hdm, if_true]
  refine ⟨?_, ?_, ?_, ?_⟩
  · intro hlen
    rw [hserve]
    split
    · rename_i heq
      rw [heq] at hlen
      simp at hlen
    · rfl
  · intro p a b hsplit ha hb
    rw [hserve, hsplit]
    simp only [if_pos (And.intro ha hb)]
  · intro p a b hsplit hab
    rw [hserve, hsplit]
    have : ¬ (a ≠ claims.UserID ∧ b ≠ claims.UserID) := by
      rintro ⟨ha, hb⟩
      rcases hab with h | h
      · exact ha h
      · exact hb h
    simp only [if_neg this]
  · intro client hadm type_ content now
    rw [hserve] at hadm
    split at hadm
    · rename_i p0 p1 p2 hsplit
      split at hadm
      · cases hadm
      · rename_i hpart
        split at hadm
        · simp only [Admission.admitted.injEq] at hadm
          subst hadm
          refine ⟨p0, p1, p2, hsplit, ?_⟩
          simp only [Client.envelope]
          by_cases h1 : p1 = claims.UserID
          · exact Or.inl h1.symm
          · by_cases h2 : p2 = claims.UserID
            · exact Or.inr h2.symm
            · exact absurd ⟨h1, h2⟩ hpart
        · cases hadm
    · cases hadm

/-- C7 (amended) for user `u` asking for `dm:u:v`: admitted; its envelopes are sent by `u`. -/
theorem C7_dm_admission_amended_witness :
    serveWs auth.verifierU true 1
        { authorization := "Bearer tok-u", token := "", channel := "dm:u:v" } =
      Admission.admitted { addr := 1, ID := "u", ChannelID := "dm:u:v" } ∧
    serveWs auth.verifierU true 1
        { authorization := "", token := "tok-u", channel := "dm:v:w" } =
      Admission.reject 403 "Unauthorized to join this DM" :=
  ⟨(C7_dm_admission_amended auth.verifierU true 1
      { authorization := "Bearer tok-u", token := "", channel := "dm:u:v" } { UserID := "u" }
      (by decide) (by decide) (by decide) (by decide)).2.2.1 "dm" "u" "v" (by decide)
      (Or.inl rfl),
   (C7_dm_admission_amended auth.verifierU true 1
      { authorization := "", token := "tok-u", channel := "dm:v:w" } { UserID := "u" }
      (by decide) (by decide) (by decide) (by decide)).2.1 "dm" "v" "w" (by decide)
      (by decide) (by decide)⟩

end gateway

namespace api

open model

/-- Whatever the token, `/conversations` answers 401 and `/conversations/read` answers 401
or 405, and neither touches the store: the middleware passes the context on without the
claims and the handlers find none under `auth.UserKey`. -/
theorem routes_never_serve (ValidateToken : String → Option auth.Claims) (iterErr : Option String)
    (execOk : Bool) (r : Request) (s : db.Session) :
    (conversationsRoute ValidateToken iterErr r s).1.status = 401 ∧
    ((readRoute ValidateToken execOk r s).1.status = 401 ∨
      (readRoute ValidateToken execOk r s).1.status = 405) ∧
    (conversationsRoute ValidateToken iterErr r s).2 = s ∧
    (readRoute ValidateToken execOk r s).2 = s := by
  unfold conversationsRoute readRoute AuthMiddleware ConversationsHandler ReadHandler
    Context.background
  refine ⟨?_, ?_, ?_, ?_⟩
  · split
    · rfl
    · split <;> rfl
  · split
    · exact Or.inl rfl
    · split
      · exact Or.inl rfl
      · split
        · exact Or.inr rfl
        · exact Or.inl rfl
  · split
    · rfl
    · split <;> rfl
  · split
    · rfl
    · split
      · rfl
      · split <;> rfl

/-- C8 (the code at the failing input): the verifier accepts `tok-u` for user `u`; the
request `GET /conversations` with `Authorization: Bearer tok-u` is answered 401
`Unauthorized`, and so is `POST /conversations/read` with that token, which leaves the
counter row it names in place. -/
theorem C8_valid_token_answered_401 (s : db.Session) :
    auth.verifierU (auth.stripBearer "Bearer tok-u") = some { UserID := "u" } ∧
    (conversationsRoute auth.verifierU none
        { method := "GET", authorization := "Bearer tok-u", body := none } s).1 =
      { status := 401, body := Body.text "Unauthorized" } ∧
    (readRoute auth.verifierU true
        { method := "POST", authorization := "Bearer tok-u", body := some "a" } s).1 =
      { status := 401, body := Body.text "Unauthorized" } ∧
    (readRoute auth.verifierU true
        { method := "POST", authorization := "Bearer tok-u", body := some "a" } s).2 = s :=
  ⟨by decide, rfl, rfl, rfl⟩

/-- Behind the middleware, unreached while it passes no claims on: were `ReadHandler` and
`ConversationsHandler` handed the claims of `u`, the first would delete the counter row
`(u, b)` and the second would then report the conversation with `b` with `unread_count` 3,
the count of the conversation with `a` listed before it, since the loop variable keeps its
`UnreadCount` when the counter query finds no row. -/
theorem ConversationsHandler_keeps_previous_count :
    (ReadHandler true (some { UserID := "u" })
        { method := "POST", authorization := "", body := some "b" } unreadStore).1.status = 200 ∧
    (ReadHandler true (some { UserID := "u" })
        { method := "POST", authorization := "", body := some "b" }
        unreadStore).2.conversation_counters ("u", "b") = none ∧
    (ConversationsHandler none (some { UserID := "u" })
        { method := "GET", authorization := "", body := none }
        (ReadHandler true (some { UserID := "u" })
          { method := "POST", authorization := "", body := some "b" } unreadStore).2).1 =
      { status := 200,
        body := Body.conversations
          [{ UserID := "u", OtherUserID := "a", LastUpdated := 10, UnreadCount := 3 },
           { UserID := "u", OtherUserID := "b", LastUpdated := 20, UnreadCount := 3 }] } :=
  ⟨by decide, by decide, by decide⟩

/-- C9 (the code at the failing input): the store holds for user `u` the conversations with
`a` (counter row 3) and with `b` (counter row 1), and the verifier accepts `tok-u` for `u`.
`POST /conversations/read` naming `b` with `Authorization: Bearer tok-u` is answered 401
`Unauthorized` and leaves the counter row `(u, b)` at 1; the `GET /conversations` with the
same header that follows is answered 401 `Unauthorized` as well: no conversation of `u` is
reported, neither with the value of its counter row nor with 0. -/
theorem C9_read_then_list_reports_nothing :
    (unreadStore.user_conversations "u" = [("a", 10), ("b", 20)] ∧
      unreadStore.conversation_counters ("u", "a") = some 3 ∧
      unreadStore.conversation_counters ("u", "b") = some 1) ∧
    auth.verifierU (auth.stripBearer "Bearer tok-u") = some { UserID := "u" } ∧
    (readRoute auth.verifierU true
        { method := "POST", authorization := "Bearer tok-u", body := some "b" } unreadStore).1 =
      { status := 401, body := Body.text "Unauthorized" } ∧
    (readRoute auth.verifierU true
        { method := "POST", authorization := "Bearer tok-u", body := some "b" }
        unreadStore).2.conversation_counters ("u", "b") = some 1 ∧
    (conversationsRoute auth.verifierU none
        { method := "GET", authorization := "Bearer tok-u", body := none }
        (readRoute auth.verifierU true
          { method := "POST", authorization := "Bearer tok-u", body := some "b" }
          unreadStore).2).1 =
      { status := 401, body := Body.text "Unauthorized" } :=
  ⟨⟨by decide, by decide, by decide⟩, by decide, by decide, by decide, by decide⟩

end api

namespace client

/-- C17: for all user IDs `a` and `b`, the client's DM channel derivation gives the same
channel ID for (user `a`, dm `b`) as for (user `b`, dm `a`), and that ID is `dm:` followed
by one of the two IDs, `:`, and the other, the second not lexicographically smaller than
the first.  With both IDs non-empty (the `-dm` flag given) this is the channel the client
connects to, whatever the `-channel` flag says. -/
theorem C17_dm_channel_canonical (a b : String) :
    dmChannelID a b = dmChannelID b a ∧
    (∃ lo hi, ((lo = a ∧ hi = b) ∨ (lo = b ∧ hi = a)) ∧ ¬ hi.data < lo.data ∧
      dmChannelID a b = "dm:" ++ lo ++ ":" ++ hi) ∧
    (∀ ca cb, a ≠ "" → b ≠ "" →
      finalChannelID a ca b = dmChannelID a b ∧ finalChannelID b cb a = dmChannelID a b) := by
  have hsym : dmChannelID a b = dmChannelID b a := by
    unfold dmChannelID
    by_cases h1 : b.data < a.data
    · have h2 : ¬ a.data < b.data := not_lt_of_gt h1
      rw [if_pos h1, if_neg h2]
    · rw [if_neg h1]
      by_cases h2 : a.data < b.data
      · rw [if_pos h2]
      · rw [if_neg h2]
        have hab : a = b := by
          apply String.ext
          rcases lt_trichotomy a.data b.data with h | h | h
          · exact absurd h h2
          · exact h
          · exact absurd h h1
        rw [hab]
  refine ⟨hsym, ?_, ?_⟩
  · unfold dmChannelID
    by_cases h1 : b.data < a.data
    · exact ⟨b, a, Or.inr ⟨rfl, rfl⟩, not_lt_of_gt h1, by rw [if_pos h1]⟩
    · exact ⟨a, b, Or.inl ⟨rfl, rfl⟩, h1, by rw [if_neg h1]⟩
  · intro ca cb ha hb
    unfold finalChannelID
    rw [if_pos hb, if_pos ha]
    exact ⟨rfl, hsym.symm⟩

/-- C17 for the users `bob` and `alice`, started from either side. -/
theorem C17_dm_channel_canonical_witness :
    finalChannelID "bob" "general" "alice" = "dm:alice:bob" ∧
    finalChannelID "alice" "lobby" "bob" = "dm:alice:bob" ∧
    finalChannelID "bob" "general" "alice" = dmChannelID "bob" "alice" ∧
    finalChannelID "alice" "lobby" "bob" = dmChannelID "bob" "alice" :=
  ⟨by decide, by decide,
    ((C17_dm_channel_canonical "bob" "alice").2.2 "general" "lobby" (by decide) (by decide)).1,
    ((C17_dm_channel_canonical "bob" "alice").2.2 "general" "lobby" (by decide) (by decide)).2⟩

end client

namespace gateway

open model

theorem head_dropWhile (p : Char → Bool) (l : List Char) (c : Char)
    (h : (l.dropWhile p).head? = some c) : p c = false := by
  induction l with
  | nil => simp at h
  | cons a l ih =>
    by_cases ha : p a = true
    · rw [List.dropWhile_cons_of_pos ha] at h
      exact ih h
    · rw [List.dropWhile_cons_of_neg ha] at h
      simp only [List.head?_cons, Option.some.injEq] at h
      subst h
      simpa using ha

theorem mem_of_mem_dropWhile (p : Char → Bool) (l : List Char) (c : Char)
    (h : c ∈ l.dropWhile p) : c ∈ l :=
  (List.dropWhile_suffix p).subset h

/-- The normalized frame has no newline and no white space at either end. -/
theorem normalize_spec (frame : String) :
    '\n' ∉ (normalize frame).data ∧
    (∀ c, (normalize frame).data.head? = some c → isSpace c = false) ∧
    (∀ c, (normalize frame).data.getLast? = some c → isSpace c = false) := by
  unfold normalize TrimSpace
  refine ⟨?_, ?_, ?_⟩
  · intro h
    simp only [List.mem_reverse] at h
    have h1 := mem_of_mem_dropWhile _ _ _ h
    simp only [List.mem_reverse] at h1
    have h2 := mem_of_mem_dropWhile _ _ _ h1
    simp only [List.mem_map] at h2
    obtain ⟨x, _, hx⟩ := h2
    by_cases hn : x = '\n'
    · rw [if_pos hn] at hx
      exact absurd hx (by decide)
    · rw [if_neg hn] at hx
      exact hn hx
  · intro c hc
    simp only at hc
    have hpre : (((frame.data.map fun c => if c = '\n' then ' ' else c).dropWhile
        isSpace).reverse.dropWhile isSpace).reverse <+:
        (frame.data.map fun c => if c = '\n' then ' ' else c).dropWhile isSpace :=
      List.rdropWhile_prefix isSpace _
    obtain ⟨t, ht⟩ := hpre
    apply head_dropWhile isSpace (frame.data.map fun c => if c = '\n' then ' ' else c) c
    rw [← ht]
    cases hl : (((frame.data.map fun c => if c = '\n' then ' ' else c).dropWhile
        isSpace).reverse.dropWhile isSpace).reverse with
    | nil => rw [hl] at hc; simp at hc
    | cons x xs =>
      rw [hl] at hc
      simpa using hc
  · intro c hc
    simp only [List.getLast?_reverse] at hc
    exact head_dropWhile isSpace _ c hc

/-- C11: for every Session and every inbound frame, the envelope the read task hands to the
hub carries the Session's own channel_id and user_id and id 0, whatever the frame contains;
with the frame normalized (newlines replaced by spaces, white space trimmed at both ends):
if it decodes as JSON with a non-empty `type`, the envelope's type and content are the
decoded ones; otherwise (it does not decode, or decodes with `type` empty) the type is
`message` and the content is the whole normalized frame. -/
theorem C11_read_task_envelope (Unmarshal : String → Option PartialMsg) (c : Client)
    (frame : String) (now : Time) :
    (readPump Unmarshal c frame now).ChannelID = c.ChannelID ∧
    (readPump Unmarshal c frame now).UserID = c.ID ∧
    (readPump Unmarshal c frame now).ID = 0 ∧
    (∀ p, Unmarshal (normalize frame) = some p → p.Type_ ≠ "" →
      (readPump Unmarshal c frame now).Type_ = p.Type_ ∧
      (readPump Unmarshal c frame now).Content = p.Content) ∧
    ((Unmarshal (normalize frame) = none ∨
        ∃ p, Unmarshal (normalize frame) = some p ∧ p.Type_ = "") →
      (readPump Unmarshal c frame now).Type_ = "message" ∧
      (readPump Unmarshal c frame now).Content = normalize frame) ∧
    '\n' ∉ (normalize frame).data ∧
    (∀ x, (normalize frame).data.head? = some x → isSpace x = false) ∧
    (∀ x, (normalize frame).data.getLast? = some x → isSpace x = false) := by
  have hfields : (readPump Unmarshal c frame now).ChannelID = c.ChannelID ∧
      (readPump Unmarshal c frame now).UserID = c.ID ∧
      (readPump Unmarshal c frame now).ID = 0 := by
    unfold readPump
    simp only
    split
    · split <;> exact ⟨rfl, rfl, rfl⟩
    · exact ⟨rfl, rfl, rfl⟩
  refine ⟨hfields.1, hfields.2.1, hfields.2.2, ?_, ?_, normalize_spec frame⟩
  · intro p hp hty
    unfold readPump
    simp only [hp, if_pos hty]
    exact ⟨rfl, rfl⟩
  · intro h
    unfold readPump
    rcases h with h | ⟨p, hp, hty⟩
    · simp only [h]
      exact ⟨rfl, rfl⟩
    · simp only [hp, hty, ne_eq, not_true_eq_false, if_false]
      exact ⟨rfl, rfl⟩

/-- C11 on a bare text frame with a newline inside and white space around it. -/
theorem C11_read_task_envelope_witness :
    normalize " hello\nworld \n" = "hello world" ∧
    readPump unmarshalSample { addr := 1, ID := "U1", ChannelID := "general" }
        " hello\nworld \n" 7 =
      { ID := 0, ChannelID := "general", UserID := "U1", Content := "hello world",
        Type_ := "message", Timestamp := 7 } ∧
    (readPump unmarshalSample { addr := 1, ID := "U1", ChannelID := "general" }
        " hello\nworld \n" 7).Type_ = "message" :=
  ⟨by decide, by decide,
    ((C11_read_task_envelope unmarshalSample { addr := 1, ID := "U1", ChannelID := "general" }
      " hello\nworld \n" 7).2.2.2.2.1 (Or.inl (by decide))).1⟩

/-- C12 (refuted as stated): the frame `{"type":"foo"}` decodes with type `foo`, and the
envelope the read task hands to the hub has type `foo`, none of the four named types. -/
theorem C12_type_counterexample :
    unmarshalSample (normalize "\x7b\"type\":\"foo\"\x7d") =
      some { Type_ := "foo", Content := "" } ∧
    (readPump unmarshalSample { addr := 1, ID := "U1", ChannelID := "general" }
      "\x7b\"type\":\"foo\"\x7d" 7).Type_ = "foo" ∧
    ("foo" ≠ TypeMessage ∧ "foo" ≠ TypeTyping ∧ "foo" ≠ TypePresence ∧
      "foo" ≠ TypeReadReceipt) := by
  decide

/-- C12 (amended): for every inbound frame, the type of the envelope that the read task
hands to the hub is not empty: it is `message`, or the non-empty `type` string that the
frame decodes with, whatever that string is. -/
theorem C12_type_amended (Unmarshal : String → Option PartialMsg) (c : Client)
    (frame : String) (now : Time) :
    (readPump Unmarshal c frame now).Type_ ≠ "" ∧
    ((readPump Unmarshal c frame now).Type_ = TypeMessage ∨
      ∃ p, Unmarshal (normalize frame) = some p ∧ p.Type_ ≠ "" ∧
        (readPump Unmarshal c frame now).Type_ = p.Type_) := by
  have hm : TypeMessage ≠ "" := by decide
  unfold readPump
  simp only
  cases hu : Unmarshal (normalize frame) with
  | none => exact ⟨hm, Or.inl rfl⟩
  | some p =>
    by_cases hty : p.Type_ = ""
    · simp only [hty, ne_eq, not_true_eq_false, if_false]
      exact ⟨hm, Or.inl rfl⟩
    · simp only [ne_eq, hty, not_false_eq_true, if_true]
      exact ⟨hty, Or.inr ⟨p, rfl, hty, rfl⟩⟩

end gateway

namespace db

open model

theorem upsertRow_idem (rows : ConversationRows) (o : String) (ts : Time) :
    upsertRow (upsertRow rows o ts) o ts = upsertRow rows o ts := by
  induction rows with
  | nil => simp [upsertRow]
  | cons r rest ih =>
    obtain ⟨a, t⟩ := r
    by_cases h1 : a = o
    · subst h1
      simp [upsertRow]
    · by_cases h2 : o.data < a.data
      · simp [upsertRow, h1, h2]
      · simp only [upsertRow, if_neg h1, if_neg h2, ih]

theorem insertRows_idem (t : String → ConversationRows) (u o : String) (ts : Time) :
    insertRows (insertRows t u o ts) u o ts = insertRows t u o ts := by
  unfold insertRows
  rw [Function.update_same, upsertRow_idem, Function.update_idem]

theorem insertRows_absorb (t : String → ConversationRows) (u1 u2 : String) (ts : Time) :
    insertRows (insertRows (insertRows t u1 u2 ts) u2 u1 ts) u1 u2 ts =
      insertRows (insertRows t u1 u2 ts) u2 u1 ts := by
  by_cases h : u1 = u2
  · subst h
    rw [insertRows_idem, insertRows_idem]
  · have hval : insertRows (insertRows t u1 u2 ts) u2 u1 ts u1 = upsertRow (t u1) u2 ts := by
      unfold insertRows
      rw [Function.update_noteq h, Function.update_same]
    have key : ∀ X : String → ConversationRows, X u1 = upsertRow (t u1) u2 ts →
        insertRows X u1 u2 ts = X := by
      intro X hX
      unfold insertRows
      rw [hX, upsertRow_idem, ← hX, Function.update_eq_self]
    exact key _ hval

end db

namespace messaging

open model

/-- The history table and the conversation index after one round on a DM envelope. -/
theorem ConsumeStep_dm_tables (s : db.Session) (msg : Message) (ok : ExecOk) (p u1 u2 : String)
    (hty : msg.Type_ = TypeMessage) (hdm : strings.isDM msg.ChannelID = true)
    (hsplit : strings.Split msg.ChannelID ':' = [p, u1, u2]) :
    (ConsumeStep s (some msg) ok).messages =
        (if ok.message = true then
          Function.update s.messages (msg.ChannelID, msg.ID)
            (some { user_id := msg.UserID, content := msg.Content, timestamp := msg.Timestamp })
         else s.messages) ∧
    (ConsumeStep s (some msg) ok).user_conversations =
        (if ok.conversation2 = true then
          db.insertRows
            (if ok.conversation1 = true then
              db.insertRows s.user_conversations u1 u2 msg.Timestamp
             else s.user_conversations) u2 u1 msg.Timestamp
         else
          (if ok.conversation1 = true then
            db.insertRows s.user_conversations u1 u2 msg.Timestamp
           else s.user_conversations)) := by
  obtain ⟨m, a, b, c⟩ := ok
  cases m <;> cases a <;> cases b <;> cases c <;>
    simp only [ConsumeStep, hty, hdm, hsplit, ne_eq, not_true_eq_false, if_false, if_true,
      Bool.false_eq_true] <;>
    refine ⟨?_, ?_⟩ <;>
    first
    | rfl
    | trivial

/-- The history table and the conversation index after one round on any other envelope of
type `message`. -/
theorem ConsumeStep_plain_tables (s : db.Session) (msg : Message) (ok : ExecOk)
    (hty : msg.Type_ = TypeMessage)
    (hplain : strings.isDM msg.ChannelID = false ∨
      ∀ p u1 u2, strings.Split msg.ChannelID ':' ≠ [p, u1, u2]) :
    (ConsumeStep s (some msg) ok).messages =
        (if ok.message = true then
          Function.update s.messages (msg.ChannelID, msg.ID)
            (some { user_id := msg.UserID, content := msg.Content, timestamp := msg.Timestamp })
         else s.messages) ∧
    (ConsumeStep s (some msg) ok).user_conversations = s.user_conversations := by
  have hstep : ConsumeStep s (some msg) ok = if ok.message = true then s.insertMessage msg else s := by
    simp only [ConsumeStep, hty, ne_eq, not_true_eq_false, if_false]
    rcases hplain with h | h
    · simp only [h, Bool.false_eq_true, if_false]
    · split
      · split
        · rename_i p u1 u2 heq
          exact absurd heq (h p u1 u2)
        · rfl
      · rfl
  rw [hstep]
  cases ok.message
  · exact ⟨rfl, rfl⟩
  · exact ⟨rfl, rfl⟩

/-- C13: for every store state and every envelope, in particular one of type `message`,
running the per-envelope step of the Persistence Consumer twice on the same envelope leaves
the history table and the conversation index exactly as running it once leaves them, so
redelivery can change only the unread counter.  The first round may be without store
failure or not; the second round may fail where it likes, as long as it writes no table row
that the first round failed to write. -/
theorem C13_redelivery_idempotent (s : db.Session) (msg : Message) (ok1 ok2 : ExecOk)
    (hm : ok2.message = true → ok1.message = true)
    (hc1 : ok2.conversation1 = true → ok1.conversation1 = true)
    (hc2 : ok2.conversation2 = true → ok1.conversation2 = true) :
    (ConsumeStep (ConsumeStep s (some msg) ok1) (some msg) ok2).messages =
        (ConsumeStep s (some msg) ok1).messages ∧
    (ConsumeStep (ConsumeStep s (some msg) ok1) (some msg) ok2).user_conversations =
        (ConsumeStep s (some msg) ok1).user_conversations := by
  by_cases hty : msg.Type_ = TypeMessage
  · have hmsg : ∀ f : String × Int → Option db.MessageRow, ∀ k v,
        (if ok2.message = true then
            Function.update (if ok1.message = true then Function.update f k v else f) k v
          else (if ok1.message = true then Function.update f k v else f)) =
          (if ok1.message = true then Function.update f k v else f) := by
      intro f k v
      by_cases h2 : ok2.message = true
      · rw [if_pos h2, if_pos (hm h2), Function.update_idem]
      · rw [if_neg h2]
    by_cases hshape : strings.isDM msg.ChannelID = true ∧
        ∃ p u1 u2, strings.Split msg.ChannelID ':' = [p, u1, u2]
    · obtain ⟨hdm, p, u1, u2, hsplit⟩ := hshape
      obtain ⟨a1, b1⟩ := ConsumeStep_dm_tables s msg ok1 p u1 u2 hty hdm hsplit
      obtain ⟨a2, b2⟩ :=
        ConsumeStep_dm_tables (ConsumeStep s (some msg) ok1) msg ok2 p u1 u2 hty hdm hsplit
      refine ⟨?_, ?_⟩
      · rw [a2, a1]
        exact hmsg _ _ _
      · rw [b2, b1]
        by_cases x1 : ok1.conversation1 = true <;> by_cases y1 : ok1.conversation2 = true <;>
          by_cases x2 : ok2.conversation1 = true <;> by_cases y2 : ok2.conversation2 = true <;>
          first
          | exact absurd (hc1 x2) x1
          | exact absurd (hc2 y2) y1
          | simp only [x1, y1, x2, y2, if_true, if_false, Bool.false_eq_true,
              db.insertRows_idem, db.insertRows_absorb]
    · have hplain : strings.isDM msg.ChannelID = false ∨
          ∀ p u1 u2, strings.Split msg.ChannelID ':' ≠ [p, u1, u2] := by
        by_cases hdm : strings.isDM msg.ChannelID = true
        · refine Or.inr fun p u1 u2 heq => hshape ⟨hdm, p, u1, u2, heq⟩
        · exact Or.inl (by simpa using hdm)
      obtain ⟨a1, b1⟩ := ConsumeStep_plain_tables s msg ok1 hty hplain
      obtain ⟨a2, b2⟩ := ConsumeStep_plain_tables (ConsumeStep s (some msg) ok1) msg ok2 hty hplain
      refine ⟨?_, ?_⟩
      · rw [a2, a1]
        exact hmsg _ _ _
      · rw [b2, b1]
  · simp only [ConsumeStep, ne_eq, hty, not_false_eq_true, if_true, and_self]

/-- C13 on a DM from `a` to `b` delivered twice with no store failure: history and index are
those of one delivery, the unread counter of `(b, a)` is 2. -/
theorem C13_redelivery_idempotent_witness :
    (ConsumeStep (ConsumeStep db.Session.empty (some (api.dm 5 "dm:a:b" "a" 3)) ExecOk.all)
        (some (api.dm 5 "dm:a:b" "a" 3)) ExecOk.all).messages =
      (ConsumeStep db.Session.empty (some (api.dm 5 "dm:a:b" "a" 3)) ExecOk.all).messages ∧
    (ConsumeStep (ConsumeStep db.Session.empty (some (api.dm 5 "dm:a:b" "a" 3)) ExecOk.all)
        (some (api.dm 5 "dm:a:b" "a" 3)) ExecOk.all).user_conversations =
      (ConsumeStep db.Session.empty (some (api.dm 5 "dm:a:b" "a" 3))
        ExecOk.all).user_conversations ∧
    (ConsumeStep (ConsumeStep db.Session.empty (some (api.dm 5 "dm:a:b" "a" 3)) ExecOk.all)
        (some (api.dm 5 "dm:a:b" "a" 3)) ExecOk.all).conversation_counters ("b", "a") = some 2 :=
  ⟨(C13_redelivery_idempotent db.Session.empty (api.dm 5 "dm:a:b" "a" 3) ExecOk.all ExecOk.all
      (fun _ => rfl) (fun _ => rfl) (fun _ => rfl)).1,
   (C13_redelivery_idempotent db.Session.empty (api.dm 5 "dm:a:b" "a" 3) ExecOk.all ExecOk.all
      (fun _ => rfl) (fun _ => rfl) (fun _ => rfl)).2,
   by decide⟩

end messaging

namespace snowflake

theorem testBit_4096 : Int.testBit 4096 12 = true := by
  show Nat.testBit 4096 12 = true
  decide

theorem testBit_zero : Int.testBit 0 12 = false := by
  show Nat.testBit 0 12 = false
  decide

/-- An ID composed on node 1 has bit 12 set, whatever the time and the sequence are. -/
theorem compose_ne_zero (now : Int) (n : Node) (hn : n.node = 1) : compose now n ≠ 0 := by
  intro h
  have hs : shl64 n.node nodeShift = 4096 := by
    rw [hn]
    decide
  unfold compose at h
  rw [hs] at h
  have := congrArg (fun z => Int.testBit z 12) h
  simp only [Int.testBit_lor, testBit_4096, testBit_zero, Bool.or_true, Bool.true_or] at this
  exact absurd this (by decide)

/-- The ID that `Generate` returns is composed from the state it leaves, and the node number
stays. -/
theorem Generate_id (n n1 : Node) (clock rest : List Int) (id : Int)
    (h : Generate n clock = some (id, n1, rest)) :
    n1.node = n.node ∧ ∃ now, id = compose now n1 := by
  cases clock with
  | nil => simp [Generate] at h
  | cons t rest0 =>
    simp only [Generate] at h
    generalize (if t < n.time then n.time else t) = now at h
    by_cases h1 : n.time = now
    · rw [if_pos h1] at h
      by_cases h2 : Int.land (add64 n.step 1) stepMask = 0
      · rw [if_pos h2] at h
        cases hs : spin n.time now rest0 with
        | none => rw [hs] at h; cases h
        | some r =>
          obtain ⟨now1, rest1⟩ := r
          rw [hs] at h
          simp only [Option.some.injEq, Prod.mk.injEq] at h
          obtain ⟨e1, e2, _⟩ := h
          subst e2
          exact ⟨rfl, now1, e1.symm⟩
      · rw [if_neg h2] at h
        simp only [Option.some.injEq, Prod.mk.injEq] at h
        obtain ⟨e1, e2, _⟩ := h
        subst e2
        exact ⟨rfl, now, e1.symm⟩
    · rw [if_neg h1] at h
      simp only [Option.some.injEq, Prod.mk.injEq] at h
      obtain ⟨e1, e2, _⟩ := h
      subst e2
      exact ⟨rfl, now, e1.symm⟩

end snowflake

namespace gateway

open model

/-- C19: on the hub's broadcast path, with the hub's generator (node 1), the envelope that is
serialized and published has id not 0; an incoming id not 0 is kept, an incoming non-zero
timestamp is kept, and channel_id, user_id, content and type are those of the incoming
envelope; the generator stays on node 1.  The step produces that envelope at once when the
incoming id is not 0, and otherwise as soon as the clock, after its first reading, shows a
time later than the last one the generator observed. -/
theorem C19_broadcast_assigns_id (node : snowflake.Node) (clock : List Int) (now : Time)
    (msg : Message) (hnode : node.node = 1) :
    (∀ out node1 rest, broadcastCase node clock now msg = some (out, node1, rest) →
      out.ID ≠ 0 ∧ (msg.ID ≠ 0 → out.ID = msg.ID) ∧
      (msg.Timestamp ≠ 0 → out.Timestamp = msg.Timestamp) ∧
      out.ChannelID = msg.ChannelID ∧ out.UserID = msg.UserID ∧ out.Content = msg.Content ∧
      out.Type_ = msg.Type_ ∧ node1.node = 1) ∧
    (msg.ID ≠ 0 → (broadcastCase node clock now msg).isSome = true) ∧
    (∀ t rest, clock = t :: rest → (∃ r ∈ rest, node.time < r) →
      (broadcastCase node clock now msg).isSome = true) := by
  refine ⟨?_, ?_, ?_⟩
  · intro out node1 rest h
    unfold broadcastCase at h
    by_cases hid : msg.ID = 0
    · simp only [hid, if_true] at h
      cases hg : snowflake.Generate node clock with
      | none => rw [hg] at h; cases h
      | some r =>
        obtain ⟨id, n1, rest1⟩ := r
        rw [hg] at h
        simp only [Option.some.injEq, Prod.mk.injEq] at h
        obtain ⟨e1, e2, _⟩ := h
        subst e2
        obtain ⟨hn1, t, ht⟩ := snowflake.Generate_id node n1 clock rest1 id hg
        have hne : id ≠ 0 := ht ▸ snowflake.compose_ne_zero t n1 (hn1.trans hnode)
        subst e1
        refine ⟨?_, fun hh => absurd hid hh, ?_, ?_, ?_, ?_, ?_, hn1.trans hnode⟩
        · split <;> exact hne
        · intro hts
          rw [if_neg hts]
        · split <;> rfl
        · split <;> rfl
        · split <;> rfl
        · split <;> rfl
    · simp only [hid, if_false, Option.some.injEq, Prod.mk.injEq] at h
      obtain ⟨e1, e2, _⟩ := h
      subst e1 e2
      refine ⟨?_, fun _ => ?_, ?_, ?_, ?_, ?_, ?_, hnode⟩
      · split <;> exact hid
      · split <;> rfl
      · intro hts
        rw [if_neg hts]
      · split <;> rfl
      · split <;> rfl
      · split <;> rfl
      · split <;> rfl
  · intro hid
    unfold broadcastCase
    simp only [hid, if_false, Option.isSome_some]
  · intro t rest hclock hlater
    unfold broadcastCase
    by_cases hid : msg.ID = 0
    · simp only [hid, if_true]
      have hret := snowflake.Generate_returns node t rest hlater
      rw [← hclock] at hret
      cases hg : snowflake.Generate node clock with
      | none => rw [hg] at hret; cases hret
      | some r => rfl
    · simp only [hid, if_false, Option.isSome_some]

/-- C19 on the envelope a read task hands over (id 0) and on one that carries an id. -/
theorem C19_broadcast_assigns_id_witness :
    broadcastCase { time := 0, node := 1, step := 0, epoch := snowflake.epoch }
        [snowflake.epoch + 5] 77
        { ID := 0, ChannelID := "general", UserID := "U1", Content := "hello",
          Type_ := "message", Timestamp := 0 } =
      some ({ ID := 20975616, ChannelID := "general", UserID := "U1", Content := "hello",
              Type_ := "message", Timestamp := 77 },
            { time := snowflake.epoch + 5, node := 1, step := 0, epoch := snowflake.epoch }, []) ∧
    (20975616 : Int) ≠ 0 ∧
    (broadcastCase { time := 0, node := 1, step := 0, epoch := snowflake.epoch } [] 77
        { ID := 9, ChannelID := "general", UserID := "U1", Content := "hello",
          Type_ := "message", Timestamp := 3 }).isSome = true :=
  ⟨by decide,
    ((C19_broadcast_assigns_id { time := 0, node := 1, step := 0, epoch := snowflake.epoch }
      [snowflake.epoch + 5] 77
      { ID := 0, ChannelID := "general", UserID := "U1", Content := "hello",
        Type_ := "message", Timestamp := 0 } rfl).1
      { ID := 20975616, ChannelID := "general", UserID := "U1", Content := "hello",
        Type_ := "message", Timestamp := 77 }
      { time := snowflake.epoch + 5, node := 1, step := 0, epoch := snowflake.epoch } []
      (by decide)).1,
    (C19_broadcast_assigns_id { time := 0, node := 1, step := 0, epoch := snowflake.epoch }
      [] 77
      { ID := 9, ChannelID := "general", UserID := "U1", Content := "hello",
        Type_ := "message", Timestamp := 3 } rfl).2.1 (by decide)⟩

/-- C18 (the code at the failing inputs).  DM: Session `a` joins `dm:a:b` and 257 envelopes
on `dm:a:b` are consumed with nothing read from its queue; the hub reached holds the Session
in `by_channel["dm:a:b"]` with a closed queue, and the unregister that follows closes the
closed queue: a panic.  Plain channel: Session `u` joins `general` and 257 envelopes on
`general` are consumed; the hub reached holds the Session in `by_user["u"]` with a closed
queue, and the fanout of a DM for `u` sends on the closed queue: a panic. -/
theorem C18_closed_queue_still_held :
    (NewHub.run (Event.register slowDM true 0 ::
        List.replicate 257 (Event.consume "raw" slowDMEnvelope)) = some evictedDMHub ∧
      slowDM ∈ evictedDMHub.byChannel "dm:a:b" ∧
      (evictedDMHub.send slowDM).closed = true ∧
      evictedDMHub.unregister slowDM true 1 = none) ∧
    (NewHub.run (Event.register slowPlain true 0 ::
        List.replicate 257 (Event.consume "raw" plainEnvelope)) = some evictedPlainHub ∧
      slowPlain ∈ evictedPlainHub.byUser "u" ∧
      (evictedPlainHub.send slowPlain).closed = true ∧
      evictedPlainHub.fanout "raw" dmToU = none) :=
  ⟨⟨eq_some_getD _ _ (by decide!), by decide!, by decide!,
      Option.isNone_iff_eq_none.mp (by decide!)⟩,
   ⟨eq_some_getD _ _ (by decide!), by decide!, by decide!,
      Option.isNone_iff_eq_none.mp (by decide!)⟩⟩

end gateway

namespace gateway

open model

/-! ### The recipients of a fanout, on the hubs that admitted registrations lead to -/

end gateway

end ChatSystem
